import Mathlib

/-!
# Verification of the MCPConsole connection / authentication coordination layer

Shallow embedding of the core services of the repository:

* `src/features/mcp-servers/services/auth/oauth-handler.ts` (`OAuthHandler`)
* `src/features/mcp-servers/services/coordinator.ts` (`MCPCoordinator`)
* `src/features/mcp-servers/services/connection/connection-manager.ts` (`ConnectionManager`)
* `src/features/mcp-servers/services/transport/transport-manager.ts` (`TransportManager`)
* the PKCE state codec (`encodeState` / `decodeState`)
* the `/api/mcp/discover-oauth` endpoint (`discoverOAuthWithMultipleMethods`)

External collaborators (the HTTP `fetch` network, the MCP SDK `Client`, and the
Node `crypto` AES-256-GCM primitive) are modelled explicitly: network traffic is
an oracle function from URLs to responses, and the authenticated cipher is an
idealized executable AEAD with the tamper-detection property that the spec
attributes to the authentication tag.  All repository logic (control flow,
priority orders, retry counts, state transitions) is translated directly from
the TypeScript sources.
-/

namespace MCPConsole

/-! ## Generic string helpers

JavaScript `String.prototype.includes` and the whitespace tokenizer
`split(/\s+/).filter(Boolean)` used throughout the sources. -/

/-- `leadsWith pre l` is true when `pre` is an initial segment of `l`
(used to implement substring search). -/
def leadsWith : List Char → List Char → Bool
  | [], _ => true
  | _ :: _, [] => false
  | a :: as, b :: bs => a == b && leadsWith as bs

/-- Substring search on character lists. -/
def listHasSub (hay needle : List Char) : Bool :=
  match hay with
  | [] => needle.isEmpty
  | _ :: t => leadsWith needle hay || listHasSub t needle

/-- Model of JavaScript `hay.includes(needle)`. -/
def containsStr (hay needle : String) : Bool :=
  listHasSub hay.data needle.data

/-- Characters matched by the JavaScript regex class `\s` (the subset relevant
to scope strings). -/
def jsWsChar (c : Char) : Bool :=
  c == ' ' || c == '\t' || c == '\n' || c == '\r' || c == '\x0b' || c == '\x0c'

/-- Accumulator-based splitter: maximal non-whitespace runs, in order. -/
def splitWsAux : List Char → List Char → List String
  | [], cur => if cur.isEmpty then [] else [String.mk cur.reverse]
  | c :: cs, cur =>
    if jsWsChar c then
      if cur.isEmpty then splitWsAux cs [] else String.mk cur.reverse :: splitWsAux cs []
    else splitWsAux cs (c :: cur)

/-- Model of JavaScript `s.split(/\s+/).filter(Boolean)`: the whitespace
tokenizer applied to scope strings. -/
def jsWords (s : String) : List String := splitWsAux s.data []

/-! ## Scope resolution (`OAuthHandler.resolveScopes`, oauth-handler.ts 172-198;
textually identical in `McpManager.resolveScopes`, mcp-manager.ts 230-250)

The `userScope` input is `string | string[]` in TypeScript; JavaScript
truthiness makes `undefined` and `""` falsy while every array (also `[]`)
is truthy, and `prmScopes?.length` is falsy for `undefined` and `[]`. -/

/-- The `string | string[]` type of the user-configured scope. -/
inductive JsScopeVal where
  | str (s : String)
  | arr (l : List String)
deriving DecidableEq

/-- Input record of `resolveScopes`. -/
structure ScopeInput where
  userScope : Option JsScopeVal
  headerScope : Option String
  prmScopes : Option (List String)
  asmScopes : Option (List String)
  registrationScopes : Option (List String)
deriving DecidableEq

/-- The `prmScopes?.length / registrationScopes?.length / asmScopes?.length`
cascade at the end of `resolveScopes`, ending in the fallback list. -/
def resolveScopesLists : Option (List String) → Option (List String) →
    Option (List String) → List String
  | some (x :: xs), _, _ => x :: xs
  | _, some (x :: xs), _ => x :: xs
  | _, _, some (x :: xs) => x :: xs
  | _, _, _ => ["openid", "email", "profile"]

/-- The `if (headerScope)` branch of `resolveScopes` and everything below it. -/
def resolveScopesFromHeader (i : ScopeInput) : List String :=
  match i.headerScope with
  | some h =>
    if h == "" then resolveScopesLists i.prmScopes i.registrationScopes i.asmScopes
    else jsWords h
  | none => resolveScopesLists i.prmScopes i.registrationScopes i.asmScopes

/-- `OAuthHandler.resolveScopes`: scope priority
user config > WWW-Authenticate > PRM > DCR > ASM > fallback, with JavaScript
truthiness tests reproduced exactly. -/
def resolveScopes (i : ScopeInput) : List String :=
  match i.userScope with
  | some (.arr l) => l
  | some (.str s) => if s == "" then resolveScopesFromHeader i else jsWords s
  | none => resolveScopesFromHeader i

instance {ε α : Type} [DecidableEq ε] [DecidableEq α] : DecidableEq (Except ε α) := fun
  | .ok a, .ok b =>
    match decEq a b with
    | isTrue h => isTrue (by rw [h])
    | isFalse h => isFalse (fun hh => h (by injection hh))
  | .ok _, .error _ => isFalse (fun h => Except.noConfusion h)
  | .error _, .ok _ => isFalse (fun h => Except.noConfusion h)
  | .error a, .error b =>
    match decEq a b with
    | isTrue h => isTrue (by rw [h])
    | isFalse h => isFalse (fun hh => h (by injection hh))

/-! ## Association-list maps

The `Map<string, ...>` fields of the services (`oauth2Tokens`, `connections`)
are modelled as association lists with last-write-wins insertion. -/

/-- Remove every binding of key `k` (model of `Map.delete`). -/
def alErase (m : List (String × α)) (k : String) : List (String × α) :=
  m.filter (fun p => p.fst ≠ k)

/-- Insert or overwrite the binding of `k` (model of `Map.set`). -/
def alSet (m : List (String × α)) (k : String) (v : α) : List (String × α) :=
  (k, v) :: alErase m k

/-- Lookup (model of `Map.get`). -/
def alGet (m : List (String × α)) (k : String) : Option α :=
  (m.find? (fun p => p.fst = k)).map Prod.snd

/-! ## Token vault (`OAuthHandler.setOAuth2Token`, oauth-handler.ts 27-38;
identical in `McpManager.setOAuth2Token`, mcp-manager.ts 109-120) -/

/-- Fields of a token-endpoint JSON response (`tokenData`).  `Option.none`
models an absent JSON field. -/
structure TokenRespM where
  access_token : String
  token_type : Option String
  expires_in : Option Nat
  refresh_token : Option String
  scope : Option String
deriving DecidableEq

/-- The stored `OAuth2Token` record. -/
structure OAuth2TokenM where
  access_token : String
  token_type : String
  expires_in : Nat
  expires_at : Nat
  refresh_token : Option String
deriving DecidableEq

/-- JavaScript `x || d` on an optional number: `undefined` and `0` are falsy. -/
def jsOrNat (x : Option Nat) (d : Nat) : Nat :=
  match x with
  | none => d
  | some 0 => d
  | some n => n

/-- JavaScript `x || d` on an optional string: `undefined` and `""` are falsy. -/
def jsOrStr (x : Option String) (d : String) : String :=
  match x with
  | none => d
  | some s => if s == "" then d else s

/-- `setOAuth2Token(serverId, tokenData)` acting on the `oauth2Tokens` map.
`now` is `Date.now()` in milliseconds; `expires_at = now + (expires_in || 3600) * 1000`. -/
def setOAuth2Token (tokens : List (String × OAuth2TokenM)) (serverId : String)
    (tokenData : TokenRespM) (now : Nat) : List (String × OAuth2TokenM) :=
  alSet tokens serverId
    { access_token := tokenData.access_token
      token_type := jsOrStr tokenData.token_type "Bearer"
      expires_in := jsOrNat tokenData.expires_in 3600
      expires_at := now + (jsOrNat tokenData.expires_in 3600) * 1000
      refresh_token := tokenData.refresh_token }

/-! ## Token refresh (`OAuthHandler.refreshToken`, oauth-handler.ts 392-453)

The two possible `fetch` calls to the token endpoint are an oracle of at most
two HTTP responses.  Each issued request is recorded with its client
authentication method so that the retry discipline is observable. -/

/-- Error value thrown by the services (`Error` with the optional `connectUrl`
property attached by `getOAuth2TokenHeader`). -/
structure ErrInfo where
  message : String
  connectUrl : Option String
deriving DecidableEq

/-- One observed HTTP response from the token endpoint.  `json` is the parsed
body of a successful response; `body` is the text read from a failed one. -/
structure HttpTokenResp where
  ok : Bool
  status : Nat
  body : String
  json : TokenRespM
deriving DecidableEq

/-- Network oracle for one `refreshToken` call: the response to the first
request and (if issued) to the retry. -/
structure RefreshEnv where
  resp1 : HttpTokenResp
  resp2 : HttpTokenResp
deriving DecidableEq

/-- How a token request authenticated the client. -/
inductive ClientAuth where
  /-- `Authorization: Basic ...` header (client secret present). -/
  | basicHeader
  /-- no client authentication (no client secret configured). -/
  | noSecret
  /-- `client_secret` embedded in the form body (the retry). -/
  | secretInBody
deriving DecidableEq

/-- The OAuth2 client configuration fields used by the handler. -/
structure OAuth2Cfg where
  tokenUrl : Option String
  authUrl : Option String
  clientId : Option String
  clientSecret : Option String
  scope : Option String
  scopes : Option (List String)
  autoDiscover : Bool
deriving DecidableEq

/-- Result of `refreshToken` (a `TokenSet`) paired with the list of issued
token-endpoint requests.  Mirrors oauth-handler.ts 392-453: Basic auth first
when a secret is configured; on `!ok` with status 401 or an `invalid_client`
body, exactly one retry with the secret in the body; `refresh_token` of the
result keeps the old refresh token when the response omits one. -/
def refreshToken (refreshTok : String) (cfg : OAuth2Cfg) (env : RefreshEnv) :
    Except ErrInfo TokenRespM × List ClientAuth :=
  match cfg.tokenUrl with
  | none => (.error ⟨"OAuth token URL not configured", none⟩, [])
  | some _ =>
    let auth1 : ClientAuth := if cfg.clientSecret.isSome then .basicHeader else .noSecret
    let r1 := env.resp1
    if r1.ok then
      (.ok { r1.json with
               token_type := some (jsOrStr r1.json.token_type "Bearer")
               expires_in := some (jsOrNat r1.json.expires_in 3600)
               refresh_token := some (jsOrStr r1.json.refresh_token refreshTok) },
       [auth1])
    else if cfg.clientSecret.isSome then
      if r1.status = 401 || containsStr r1.body "invalid_client" then
        let r2 := env.resp2
        if r2.ok then
          (.ok { r2.json with
                   token_type := some (jsOrStr r2.json.token_type "Bearer")
                   expires_in := some (jsOrNat r2.json.expires_in 3600)
                   refresh_token := some (jsOrStr r2.json.refresh_token refreshTok) },
           [auth1, .secretInBody])
        else
          (.error ⟨"Token refresh failed: " ++ toString r2.status ++ " " ++ r2.body, none⟩,
           [auth1, .secretInBody])
      else
        (.error ⟨"Token refresh failed: " ++ toString r1.status ++ " " ++ r1.body, none⟩, [auth1])
    else
      (.error ⟨"Token refresh failed: " ++ toString r1.status ++ " " ++ r1.body, none⟩, [auth1])

/-! ## Connection registry (`ConnectionManager`, connection-manager.ts)

A connection record holds the status, the last error / connect URL and whether
a `Client` object is attached (`client: undefined` for records registered by
`registerConnectionState` on a fresh id). -/

/-- `ConnectionStatus` of connection records. -/
inductive ConnStatus where
  | connecting
  | connected
  | errorS
  | disconnected
  | authRequired
deriving DecidableEq

/-- One `MCPConnection` record. -/
structure ConnRec where
  status : ConnStatus
  errMsg : Option String
  connectUrl : Option String
  hasClient : Bool
deriving DecidableEq

/-- Combined mutable state of the coordinator's services: the
`ConnectionManager.connections` map and the `OAuthHandler.oauth2Tokens` map. -/
structure CoordState where
  conns : List (String × ConnRec)
  tokens : List (String × OAuth2TokenM)
deriving DecidableEq

/-- `ConnectionManager.getConnectionStatus` (connection-manager.ts 147-150):
a missing record reads as `disconnected`. -/
def getConnectionStatus (conns : List (String × ConnRec)) (serverId : String) : ConnStatus :=
  match alGet conns serverId with
  | some r => r.status
  | none => .disconnected

/-- `ConnectionManager.registerConnectionState` (connection-manager.ts 27-48):
update the existing record in place (keeping its client) or insert a fresh
record with `client: undefined`. -/
def registerConnectionState (conns : List (String × ConnRec)) (serverId : String)
    (status : ConnStatus) (errMsg : Option String) (connectUrl : Option String) :
    List (String × ConnRec) :=
  match alGet conns serverId with
  | some r => alSet conns serverId { r with status := status, errMsg := errMsg, connectUrl := connectUrl }
  | none => alSet conns serverId ⟨status, errMsg, connectUrl, false⟩

/-- `ConnectionManager.closeConnection` (connection-manager.ts 128-142): close
the client if one is attached — any close error is caught and only logged —
then delete the record unconditionally.  `closeOutcome` is the oracle for
`client.close()`; the resulting map does not depend on it. -/
def closeConnection (conns : List (String × ConnRec)) (serverId : String)
    (_closeOutcome : Except ErrInfo Unit) : List (String × ConnRec) :=
  alErase conns serverId

/-- `MCPCoordinator.disconnect` (coordinator.ts 218-222): close the connection
and clear the cached OAuth2 token. -/
def coordinatorDisconnect (st : CoordState) (serverId : String)
    (closeOutcome : Except ErrInfo Unit) : CoordState :=
  ⟨closeConnection st.conns serverId closeOutcome, alErase st.tokens serverId⟩

/-- Result content of a tool call (`MCPToolResult`). -/
structure ToolResultM where
  content : List String
  isErrorFlag : Bool
deriving DecidableEq

/-- `ConnectionManager.callTool` (connection-manager.ts 213-241) with the
underlying `client.callTool` as an oracle.  The second component counts the
network calls issued to the tool transport. -/
def callToolConn (conns : List (String × ConnRec)) (callOutcome : Except ErrInfo ToolResultM)
    (_toolName : String) (serverId : String) : Except ErrInfo ToolResultM × Nat :=
  match alGet conns serverId with
  | some r =>
    if r.status = .connected ∧ r.hasClient then
      match callOutcome with
      | .ok res => (.ok res, 1)
      | .error e => (.error e, 1)
    else
      (.error ⟨"Server " ++ serverId ++ " is not connected or client is missing.", none⟩, 0)
  | none =>
    (.error ⟨"Server " ++ serverId ++ " is not connected or client is missing.", none⟩, 0)

/-! ## Transport classification (`TransportManager`, transport-manager.ts 154-171) -/

/-- `TransportManager.isSSEConnectionError`: the failure pattern that marks the
event-stream transport as unsupported. -/
def isSSEConnectionError (message : String) : Bool :=
  containsStr message "405" || containsStr message "404" || containsStr message "202" ||
    containsStr message "Stats" || containsStr message "Unexpected token"

/-- `TransportManager.isAuthenticationError`. -/
def isAuthenticationError (message : String) : Bool :=
  containsStr message "401" || containsStr message "Authentication failed"

/-- The error classification of the coordinator's catch block
(coordinator.ts 198-202). -/
def isAuthErrorInfo (e : ErrInfo) : Bool :=
  containsStr e.message "authorize" || containsStr e.message "token expired" ||
    e.connectUrl.isSome

/-! ## Coordinator connect (`MCPCoordinator.connect`, coordinator.ts 65-213)

Every effect of the original (`discoverOAuthConfiguration`,
`registerDynamicClient`, `getOAuth2TokenHeader`, `client.connect`) is an oracle
supplied through `ConnectEnv`; the coordinator's control flow — discovery
application, dynamic registration, the pre-transport auth guard, the single
SSE → stateless-HTTP fallback and the catch-block state registration — is
translated statement by statement.  The returned list records every transport
on which `establishConnection` ran `client.connect`. -/

/-- Result of `discoverOAuthConfiguration` as consumed by `connect`. -/
structure DiscoveredAuthM where
  tokenUrl : Option String
  authUrl : Option String
  registrationUrl : Option String
  scopes : List String
  headerScope : Option String
  requiresAuth : Bool
deriving DecidableEq

/-- Result of `registerDynamicClient`. -/
structure ClientCredsM where
  clientId : String
  clientSecret : Option String
  scope : Option String
deriving DecidableEq

/-- The parsed `server.config` fields used by `connect`. -/
structure ServerCfg where
  url : String
  oauth2 : Option OAuth2Cfg
deriving DecidableEq

/-- An `MCPServer` as seen by the coordinator. -/
structure ServerM where
  id : String
  name : String
  type : String
  cfg : ServerCfg
deriving DecidableEq

/-- Oracle outcomes for one `connect()` call. -/
structure ConnectEnv where
  /-- outcome of `discoverOAuthConfiguration(config.url)`. -/
  discovery : Option DiscoveredAuthM
  /-- outcome of `registerDynamicClient`. -/
  registration : Option ClientCredsM
  /-- outcome of the first `getOAuth2TokenHeader` call. -/
  authPrimary : Except ErrInfo String
  /-- outcome of `client.connect` on the primary transport. -/
  connectPrimary : Except ErrInfo Unit
  /-- outcome of `getOAuth2TokenHeader` re-run for the fallback. -/
  authFallback : Except ErrInfo String
  /-- outcome of `client.connect` on the stateless fallback transport. -/
  connectFallback : Except ErrInfo Unit
deriving DecidableEq

/-- The transports on which a `client.connect` handshake was attempted.
`createTransport` picks streaming HTTP for `http-direct` and the SSE transport
otherwise; the fallback always uses the stateless HTTP transport. -/
inductive AttemptKind where
  | primaryStreamable
  | primarySSE
  | stateless
deriving DecidableEq

/-- Body of `establishConnection` past its early-connected check: store a
`connecting` record carrying the client, run `client.connect` (the oracle
`outcome`), and record `connected` or `error` accordingly. -/
def establishConnectionGo (conns : List (String × ConnRec)) (serverId : String)
    (outcome : Except ErrInfo Unit) (kind : AttemptKind) :
    List (String × ConnRec) × Except ErrInfo Unit × List AttemptKind :=
  let conns1 := alSet conns serverId ⟨.connecting, none, none, true⟩
  match outcome with
  | .ok _ => (alSet conns1 serverId ⟨.connected, none, none, true⟩, .ok (), [kind])
  | .error e => (alSet conns1 serverId ⟨.errorS, some e.message, none, true⟩, .error e, [kind])

/-- `ConnectionManager.establishConnection` (connection-manager.ts 53-105):
early-return on an already-connected record, otherwise attempt the handshake. -/
def establishConnection (conns : List (String × ConnRec)) (serverId : String)
    (outcome : Except ErrInfo Unit) (kind : AttemptKind) :
    List (String × ConnRec) × Except ErrInfo Unit × List AttemptKind :=
  match alGet conns serverId with
  | some r =>
    if r.status = .connected then (conns, .ok (), [])
    else establishConnectionGo conns serverId outcome kind
  | none => establishConnectionGo conns serverId outcome kind

/-- The catch block of `connect` (coordinator.ts 195-212): classify the error,
register the terminal connection state, and rethrow. -/
def connectCatch (st : CoordState) (server : ServerM) (e : ErrInfo)
    (attempts : List AttemptKind) : CoordState × Except ErrInfo Unit × List AttemptKind :=
  (⟨registerConnectionState st.conns server.id
      (if isAuthErrorInfo e then .authRequired else .errorS) (some e.message) e.connectUrl,
    st.tokens⟩,
   .error e, attempts)

/-- The discovery phase of `connect` (coordinator.ts 84-104): run discovery
when configuration is incomplete or `autoDiscover` is set, and merge the
discovered endpoints into `config.oauth2` when the resource requires auth or
`autoDiscover` was requested.  Returns the discovery outcome actually observed
and the updated oauth2 config. -/
def connectDiscoveryPhase (cfgOauth : Option OAuth2Cfg) (env : ConnectEnv) :
    Option DiscoveredAuthM × Option OAuth2Cfg :=
  let needsDiscovery :=
    (cfgOauth.bind (·.tokenUrl)).isNone || (cfgOauth.bind (·.authUrl)).isNone ||
      (cfgOauth.bind (·.clientId)).isNone || (cfgOauth.map (·.autoDiscover)).getD false
  let shouldAttemptDiscovery := cfgOauth.isSome || needsDiscovery
  if shouldAttemptDiscovery && (cfgOauth.isNone || needsDiscovery) then
    match env.discovery with
    | some d =>
      if d.requiresAuth || (cfgOauth.map (·.autoDiscover)).getD false then
        let base := cfgOauth.getD ⟨none, none, none, none, none, none, false⟩
        (some d,
         some { base with
                  tokenUrl := d.tokenUrl
                  authUrl := d.authUrl
                  scopes := some d.scopes
                  scope := if base.scope.isNone && d.headerScope.isSome then d.headerScope
                           else base.scope })
      else (some d, cfgOauth)
    | none => (none, cfgOauth)
  else (none, cfgOauth)

/-- The dynamic-client-registration phase of `connect` (coordinator.ts 107-120). -/
def connectRegistrationPhase (discovered : Option DiscoveredAuthM)
    (cfgOauth : Option OAuth2Cfg) (env : ConnectEnv) : Option OAuth2Cfg :=
  match discovered with
  | some d =>
    if (d.requiresAuth || (cfgOauth.map (·.autoDiscover)).getD false) &&
        d.registrationUrl.isSome && (cfgOauth.bind (·.clientId)).isNone then
      match env.registration with
      | some creds =>
        let base := cfgOauth.getD ⟨none, none, none, none, none, none, false⟩
        some { base with clientId := some creds.clientId, clientSecret := creds.clientSecret }
      | none => cfgOauth
    else cfgOauth
  | none => cfgOauth

/-- The stateless-HTTP fallback branch (coordinator.ts 162-192): on an
SSE-pattern failure, re-derive headers (suppressing any auth error) and attempt
the stateless transport exactly once; a 401 after a suppressed auth error
surfaces the suppressed error. -/
def connectFallbackPhase (st : CoordState) (server : ServerM) (env : ConnectEnv)
    (cfgOauth : Option OAuth2Cfg) (connectError : ErrInfo) (a1 : List AttemptKind) :
    CoordState × Except ErrInfo Unit × List AttemptKind :=
  if isSSEConnectionError connectError.message then
    let fallbackAuthError : Option ErrInfo :=
      if cfgOauth.isSome then
        match env.authFallback with
        | .ok _ => none
        | .error e => some e
      else none
    let (conns2, r2, a2) := establishConnection st.conns server.id env.connectFallback .stateless
    let st2 : CoordState := ⟨conns2, st.tokens⟩
    match r2 with
    | .ok _ => (st2, .ok (), a1 ++ a2)
    | .error fallbackError =>
      match fallbackAuthError with
      | some fae =>
        if isAuthenticationError fallbackError.message then connectCatch st2 server fae (a1 ++ a2)
        else connectCatch st2 server fallbackError (a1 ++ a2)
      | none => connectCatch st2 server fallbackError (a1 ++ a2)
  else connectCatch st server connectError a1

/-- The transport phase of `connect` (coordinator.ts 148-193): primary
handshake; on failure either surface a pre-existing suppressed auth error
(when the handshake failure is a 401) or enter the fallback branch. -/
def connectTransportPhase (st : CoordState) (server : ServerM) (env : ConnectEnv)
    (cfgOauth : Option OAuth2Cfg) (primaryAuthError : Option ErrInfo) :
    CoordState × Except ErrInfo Unit × List AttemptKind :=
  let kind : AttemptKind := if server.type = "http-direct" then .primaryStreamable else .primarySSE
  let (conns1, r1, a1) := establishConnection st.conns server.id env.connectPrimary kind
  let st1 : CoordState := ⟨conns1, st.tokens⟩
  match r1 with
  | .ok _ => (st1, .ok (), a1)
  | .error connectError =>
    match primaryAuthError with
    | some pe =>
      if isAuthenticationError connectError.message then connectCatch st1 server pe a1
      else connectFallbackPhase st1 server env cfgOauth connectError a1
    | none => connectFallbackPhase st1 server env cfgOauth connectError a1

/-- `MCPCoordinator.connect` (coordinator.ts 65-213).  Returns the final
coordinator state, the promise outcome and the list of transport handshakes
attempted.  Servers whose type is not `http`/`sse`/`http-direct` skip the whole
body and resolve successfully. -/
def coordinatorConnect (st : CoordState) (server : ServerM) (env : ConnectEnv) :
    CoordState × Except ErrInfo Unit × List AttemptKind :=
  if getConnectionStatus st.conns server.id = .connected then (st, .ok (), [])
  else if server.type = "http" || server.type = "sse" || server.type = "http-direct" then
    let (discovered, cfg1) := connectDiscoveryPhase server.cfg.oauth2 env
    let cfg2 := connectRegistrationPhase discovered cfg1 env
    let primaryAuthError : Option ErrInfo :=
      if cfg2.isSome && (cfg2.bind (·.tokenUrl)).isSome then
        match env.authPrimary with
        | .ok _ => none
        | .error e => some e
      else none
    match primaryAuthError with
    | some pe =>
      if (discovered.map (·.requiresAuth)).getD false || cfg2.isSome then
        connectCatch st server pe []
      else connectTransportPhase st server env cfg2 (some pe)
    | none => connectTransportPhase st server env cfg2 none
  else (st, .ok (), [])

/-! ## OAuth discovery

Two implementations exist in the repository:
`OAuthHandler.discoverOAuthConfiguration` (oauth-handler.ts 57-167, textually
identical in mcp-manager.ts 126-228) used by the coordinator, and
`discoverOAuthWithMultipleMethods` backing the `/api/mcp/discover-oauth`
endpoint.  The network is an oracle `String → FetchOutcome` keyed by URL; each
model also returns the ordered list of URLs it fetched, so "no further network
calls" is expressible.  The `WWW-Authenticate` regex captures
(`resource_metadata="..."`, `scope="..."`) are modelled as pre-parsed optional
fields of the probe response. -/

/-- The JSON fields of discovery documents that the code reads. -/
structure JsonDoc where
  authorization_server : Option String
  authorization_servers : Option (List String)
  scopes_supported : Option (List String)
  token_endpoint : Option String
  authorization_endpoint : Option String
  registration_endpoint : Option String
deriving DecidableEq

/-- An HTTP response as seen by the discovery code.  `json = none` models a
body on which `res.json()` throws. -/
structure HttpRespM where
  status : Nat
  wwwAuthMeta : Option String
  wwwAuthScope : Option String
  json : Option JsonDoc
deriving DecidableEq

/-- Outcome of one `fetch`: either a thrown network error (with the optional
`cause.code`) or a response. -/
inductive FetchOutcome where
  | fail (netCode : Option String)
  | resp (r : HttpRespM)
deriving DecidableEq

/-- `Response.ok`: status in the 200-299 range. -/
def okStatus (status : Nat) : Bool := 200 ≤ status && status < 300

/-- The parsed JSON of one fetch if it was `ok` and its body parsed, `none`
otherwise (the common pattern of every discovery fetch). -/
def okJson : FetchOutcome → Option JsonDoc
  | .resp r => if okStatus r.status then r.json else none
  | .fail _ => none

def wellKnownPrm : String := "/.well-known/oauth-protected-resource"

def wellKnownAsm : String := "/.well-known/oauth-authorization-server"

def wellKnownOidc : String := "/.well-known/openid-configuration"

/-- The Protected-Resource-Metadata candidate loop (oauth-handler.ts 107-122):
fetch candidates in order, stop at the first `ok` response whose body parses;
also return the URLs fetched. -/
def fetchFirstPrm (env : String → FetchOutcome) : List String → Option JsonDoc × List String
  | [] => (none, [])
  | u :: rest =>
    match env u with
    | .resp r =>
      if okStatus r.status then
        match r.json with
        | some d => (some d, [u])
        | none =>
          let (res, tr) := fetchFirstPrm env rest
          (res, u :: tr)
      else
        let (res, tr) := fetchFirstPrm env rest
        (res, u :: tr)
    | .fail _ =>
      let (res, tr) := fetchFirstPrm env rest
      (res, u :: tr)

/-- Assembling the result object of `discoverOAuthConfiguration`
(oauth-handler.ts 147-162). -/
def mkDiscoveryResult (prm : JsonDoc) (authMeta : Option JsonDoc)
    (headerScope : Option String) (probeRequiresAuth : Bool) : DiscoveredAuthM :=
  { tokenUrl := authMeta.bind (·.token_endpoint)
    authUrl := authMeta.bind (·.authorization_endpoint)
    registrationUrl := authMeta.bind (·.registration_endpoint)
    scopes := resolveScopes ⟨none, headerScope, prm.scopes_supported,
                             authMeta.bind (·.scopes_supported), none⟩
    headerScope := headerScope
    requiresAuth := probeRequiresAuth }

/-- Steps 2-3 of `discoverOAuthConfiguration` (oauth-handler.ts 99-162): PRM
candidates (hinted URL first, then the two well-known locations), then — when a
PRM document names an authorization server — one Authorization-Server-Metadata
fetch.  `new URL(path, authServer)` is modelled as string concatenation of the
server origin and the well-known path. -/
def discoverStep2 (env : String → FetchOutcome) (origin pathname : String)
    (resourceMetadataUrl headerScope : Option String) (probeRequiresAuth : Bool)
    (trace0 : List String) : Option DiscoveredAuthM × List String :=
  let pathAdj := if pathname = "/" then "" else pathname
  let candidates :=
    (match resourceMetadataUrl with | some u => [u] | none => []) ++
      [origin ++ wellKnownPrm ++ pathAdj, origin ++ wellKnownPrm]
  match fetchFirstPrm env candidates with
  | (none, tr1) => (none, trace0 ++ tr1)
  | (some prm, tr1) =>
    let authServer : Option String :=
      match prm.authorization_server with
      | some s => some s
      | none =>
        match prm.authorization_servers with
        | some (x :: _) => some x
        | _ => none
    match authServer with
    | some srv =>
      let asmUrl := srv ++ wellKnownAsm
      let authMeta : Option JsonDoc :=
        match env asmUrl with
        | .resp r => if okStatus r.status then r.json else none
        | .fail _ => none
      (some (mkDiscoveryResult prm authMeta headerScope probeRequiresAuth),
       trace0 ++ tr1 ++ [asmUrl])
    | none =>
      (some (mkDiscoveryResult prm none headerScope probeRequiresAuth), trace0 ++ tr1)

/-- `OAuthHandler.discoverOAuthConfiguration` (oauth-handler.ts 57-167).
`serverUrl` is the probed resource URL, `origin`/`pathname` its parsed
components.  A 200-range probe short-circuits to `none`; a network error with
cause code ENOTFOUND / ECONNREFUSED / ETIMEDOUT short-circuits to `none`; a
401 probe records `requiresAuth` and the parsed `WWW-Authenticate` hints. -/
def discoverOAuthConfiguration (env : String → FetchOutcome)
    (serverUrl origin pathname : String) : Option DiscoveredAuthM × List String :=
  match env serverUrl with
  | .fail code =>
    if code = some "ENOTFOUND" || code = some "ECONNREFUSED" || code = some "ETIMEDOUT" then
      (none, [serverUrl])
    else
      discoverStep2 env origin pathname none none false [serverUrl]
  | .resp r =>
    if r.status = 401 then
      discoverStep2 env origin pathname r.wwwAuthMeta r.wwwAuthScope true [serverUrl]
    else if okStatus r.status then (none, [serverUrl])
    else discoverStep2 env origin pathname none none false [serverUrl]

/-- The result type of `discoverOAuthWithMultipleMethods` (the
`OAuthDiscoveryResult` of the `/discover-oauth` endpoint). -/
structure EndpointDiscoveryM where
  tokenEndpoint : Option String
  authorizationEndpoint : Option String
  registrationUrl : Option String
  scopesSupported : Option (List String)
  requiresAuth : Bool
deriving DecidableEq

/-- First `ok` document in a url list where the body parses (the ASM and OIDC
loops of `discoverOAuthWithMultipleMethods`). -/
def fetchFirstDoc (env : String → FetchOutcome) : List String → Option JsonDoc
  | [] => none
  | u :: rest =>
    match env u with
    | .resp r =>
      if okStatus r.status then
        match r.json with
        | some d => some d
        | none => fetchFirstDoc env rest
      else fetchFirstDoc env rest
    | .fail _ => fetchFirstDoc env rest

/-- `discoverOAuthWithMultipleMethods` (the `/api/mcp/discover-oauth`
endpoint): PRM at the origin, then ASM over the candidate authorization
servers (default: the origin), then OpenID Connect discovery, and finally —
when nothing was found — the probe of the server URL itself, returning a
partial result on a 401.  JavaScript truthiness of the JSON arrays is
reproduced: `prm.authorization_servers` and `scopes_supported` take effect
even when they are empty arrays. -/
def discoverOAuthWithMultipleMethods (env : String → FetchOutcome)
    (serverUrl origin : String) : Option EndpointDiscoveryM :=
  let prmOpt : Option JsonDoc :=
    match env (origin ++ wellKnownPrm) with
    | .resp r => if okStatus r.status then r.json else none
    | .fail _ => none
  let requiresAuth := prmOpt.isSome
  let scopes0 : List String :=
    match prmOpt with
    | some prm =>
      match prm.scopes_supported with
      | some l => l
      | none => ["openid", "email", "profile"]
    | none => ["openid", "email", "profile"]
  let authorizationServers0 : List String :=
    match prmOpt with
    | some prm =>
      match prm.authorization_servers with
      | some l => l
      | none =>
        match prm.authorization_server with
        | some s => [s]
        | none => []
    | none => []
  let authorizationServers :=
    if authorizationServers0.length = 0 then [origin] else authorizationServers0
  let asmMeta : Option JsonDoc :=
    fetchFirstDoc env (authorizationServers.map (fun s => s ++ wellKnownAsm))
  let scopes1 : List String :=
    match asmMeta with
    | some m =>
      match m.scopes_supported with
      | some l => if requiresAuth then scopes0 else l
      | none => scopes0
    | none => scopes0
  let authMeta : Option JsonDoc :=
    match asmMeta with
    | some m => some m
    | none => fetchFirstDoc env (authorizationServers.map (fun s => s ++ wellKnownOidc))
  match authMeta with
  | some m =>
    some ⟨m.token_endpoint, m.authorization_endpoint, m.registration_endpoint,
          some scopes1, requiresAuth⟩
  | none =>
    match env serverUrl with
    | .resp r =>
      if r.status = 401 then some ⟨none, none, none, some scopes1, true⟩ else none
    | .fail _ => none

/-! ## PKCE state codec (`encodeState` / `decodeState`)

The codec serializes `{verifier, serverId, nonce, createdAt}` to JSON,
authenticated-encrypts it with AES-256-GCM under a key derived from the
configured secret, assembles `iv ++ authTag ++ ciphertext` and base64url-encodes
the result; `decodeState` reverses this, returning `null` — never throwing —
on any decoding/verification failure or when `createdAt` is older than ten
minutes.

JSON and the Node `crypto` cipher are external libraries, modelled here by
executable counterparts with exactly the properties the code relies on:

* serialization is an injective byte encoding with an inverse parser
  (length-prefixed strings, LEB128 numbers), standing in for
  `JSON.stringify` / `JSON.parse`;
* the cipher is a keystream XOR (invertible, byte-preserving), standing in for
  AES-256-CTR inside GCM;
* the 16-byte authentication tag is a checksum of `iv ++ ciphertext` modulo
  257 that — like the real GCM tag — changes whenever any single byte of the
  IV, tag or ciphertext of the envelope is replaced by a different byte.

Bytes are `Nat`s below 256.  The per-call random nonce and IV of the source
are explicit arguments. -/

/-- `PKCEStateData`.  `createdAt` is `Date.now()` in milliseconds. -/
structure PKCEStateData where
  verifier : String
  serverId : String
  nonce : String
  createdAt : Nat
deriving DecidableEq

/-- The 10-minute validity window of `decodeState`, in milliseconds. -/
def TEN_MINUTES : Nat := 10 * 60 * 1000

/-- LEB128 worker, structurally recursive on a fuel bound so that the kernel
can evaluate it. -/
def natLEBFuel : Nat → Nat → List Nat
  | 0, _ => []
  | fuel + 1, n => if n < 128 then [n] else (n % 128 + 128) :: natLEBFuel fuel (n / 128)

/-- LEB128: little-endian base-128 with a continuation bit. -/
def natLEB (n : Nat) : List Nat := natLEBFuel (n + 1) n

/-- Inverse of `natLEB`, returning the decoded number and the remaining bytes. -/
def lebParse : List Nat → Option (Nat × List Nat)
  | [] => none
  | b :: rest =>
    if b < 128 then some (b, rest)
    else
      match lebParse rest with
      | some (m, r) => some (m * 128 + (b - 128), r)
      | none => none

/-- Byte encoding of a character list: each code point LEB128-encoded. -/
def charsBytes : List Char → List Nat
  | [] => []
  | c :: cs => natLEB c.toNat ++ charsBytes cs

/-- Read back `n` characters. -/
def charsParse : Nat → List Nat → Option (List Char × List Nat)
  | 0, bs => some ([], bs)
  | n + 1, bs =>
    match lebParse bs with
    | none => none
    | some (v, r) =>
      if (Char.ofNat v).toNat = v then
        match charsParse n r with
        | none => none
        | some (cs, r') => some (Char.ofNat v :: cs, r')
      else none

/-- Length-prefixed byte encoding of a string. -/
def strBytes (s : String) : List Nat :=
  natLEB s.data.length ++ charsBytes s.data

/-- Inverse of `strBytes`. -/
def strParse (bs : List Nat) : Option (String × List Nat) :=
  match lebParse bs with
  | none => none
  | some (n, r) =>
    match charsParse n r with
    | none => none
    | some (cs, r') => some (String.mk cs, r')

/-- The serialized plaintext (stand-in for `JSON.stringify(fullData)`). -/
def serializeState (d : PKCEStateData) : List Nat :=
  strBytes d.verifier ++ strBytes d.serverId ++ strBytes d.nonce ++ natLEB d.createdAt

/-- Stand-in for `JSON.parse` on the decrypted plaintext: rejects anything that
is not exactly a serialized `PKCEStateData`. -/
def parseState (bs : List Nat) : Option PKCEStateData :=
  match strParse bs with
  | none => none
  | some (verifier, r1) =>
    match strParse r1 with
    | none => none
    | some (serverId, r2) =>
      match strParse r2 with
      | none => none
      | some (nonce, r3) =>
        match lebParse r3 with
        | some (createdAt, []) => some ⟨verifier, serverId, nonce, createdAt⟩
        | _ => none

/-- Keystream byte at position `i` for initialization vector `iv` (executable
stand-in for the AES-256-CTR keystream under the derived key). -/
def ksByte (iv : List Nat) (i : Nat) : Nat := (iv.sum + i) % 256

/-- XOR a byte list against the keystream starting at position `i`
(the symmetric encrypt/decrypt primitive). -/
def xorStream (iv : List Nat) : Nat → List Nat → List Nat
  | _, [] => []
  | i, b :: bs => (b ^^^ ksByte iv i) :: xorStream iv (i + 1) bs

/-- Checksum underlying the authentication tag: the byte sum of
`iv ++ ciphertext` modulo 257.  Replacing any single byte (a value below 256)
by a different byte changes it. -/
def tagVal (iv ct : List Nat) : Nat := (iv ++ ct).sum % 257

/-- The 16-byte authentication tag of the envelope. -/
def tagBytes (iv ct : List Nat) : List Nat :=
  tagVal iv ct / 256 :: tagVal iv ct % 256 :: List.replicate 14 0

/-- The `combined` buffer `iv ++ authTag ++ encryptedData` of `encodeState`. -/
def combinedBytes (verifier serverId nonce : String) (createdAt : Nat)
    (iv : List Nat) : List Nat :=
  let ct := xorStream iv 0 (serializeState ⟨verifier, serverId, nonce, createdAt⟩)
  iv ++ tagBytes iv ct ++ ct

/-! ### base64url (`base64URLEncode` / `base64URLDecode`)

The source base64-encodes the buffer, swaps `+`/`-` and `/`/`_` and strips the
padding; decoding re-pads and reverses.  Modelled directly in the URL-safe
alphabet without padding. -/

/-- The base64url alphabet: sextet to character. -/
def b64Char (n : Nat) : Char :=
  if n < 26 then Char.ofNat (65 + n)
  else if n < 52 then Char.ofNat (97 + (n - 26))
  else if n < 62 then Char.ofNat (48 + (n - 52))
  else if n = 62 then '-'
  else '_'

/-- Character to sextet; `none` on characters outside the alphabet. -/
def b64Val (c : Char) : Option Nat :=
  let n := c.toNat
  if 65 ≤ n ∧ n ≤ 90 then some (n - 65)
  else if 97 ≤ n ∧ n ≤ 122 then some (n - 97 + 26)
  else if 48 ≤ n ∧ n ≤ 57 then some (n - 48 + 52)
  else if c = '-' then some 62
  else if c = '_' then some 63
  else none

/-- base64url encoding of a byte list (three bytes per four characters, with
the standard 1- and 2-byte tails and no padding). -/
def b64EncodeBytes : List Nat → List Char
  | [] => []
  | [b0] => [b64Char (b0 / 4), b64Char (b0 % 4 * 16)]
  | [b0, b1] => [b64Char (b0 / 4), b64Char (b0 % 4 * 16 + b1 / 16), b64Char (b1 % 16 * 4)]
  | b0 :: b1 :: b2 :: rest =>
    b64Char (b0 / 4) :: b64Char (b0 % 4 * 16 + b1 / 16) ::
      b64Char (b1 % 16 * 4 + b2 / 64) :: b64Char (b2 % 64) :: b64EncodeBytes rest

/-- base64url decoding; `none` on foreign characters or an impossible length. -/
def b64DecodeChars : List Char → Option (List Nat)
  | [] => some []
  | [_] => none
  | [c0, c1] =>
    match b64Val c0, b64Val c1 with
    | some s0, some s1 => some [s0 * 4 + s1 / 16]
    | _, _ => none
  | [c0, c1, c2] =>
    match b64Val c0, b64Val c1, b64Val c2 with
    | some s0, some s1, some s2 => some [s0 * 4 + s1 / 16, s1 % 16 * 16 + s2 / 4]
    | _, _, _ => none
  | c0 :: c1 :: c2 :: c3 :: rest =>
    match b64Val c0, b64Val c1, b64Val c2, b64Val c3, b64DecodeChars rest with
    | some s0, some s1, some s2, some s3, some bs =>
      some ((s0 * 4 + s1 / 16) :: (s1 % 16 * 16 + s2 / 4) :: (s2 % 4 * 64 + s3) :: bs)
    | _, _, _, _, _ => none

/-- `encodeState` (part_008, 56-82): serialize, encrypt, tag, and base64url
the `iv ++ authTag ++ ciphertext` buffer.  The random nonce and IV are
arguments. -/
def encodeState (verifier serverId nonce : String) (createdAt : Nat)
    (iv : List Nat) : String :=
  String.mk (b64EncodeBytes (combinedBytes verifier serverId nonce createdAt iv))

/-- `decodeState` (part_008, 88-120): base64url-decode, split off the 16-byte
IV and 16-byte tag, verify the tag, decrypt, parse, and reject envelopes whose
`createdAt` lies more than ten minutes before `now`.  Every failure yields
`none` (the source catches all exceptions and returns `null`). -/
def decodeState (state : String) (now : Nat) : Option PKCEStateData :=
  match b64DecodeChars state.data with
  | none => none
  | some combined =>
    let iv := combined.take 16
    let tag := (combined.drop 16).take 16
    let ct := combined.drop 32
    if tag = tagBytes iv ct then
      match parseState (xorStream iv 0 ct) with
      | none => none
      | some d => if now - d.createdAt > TEN_MINUTES then none else some d
    else none

/-! # Theorems -/

/-! ## C2 — scope resolution priority -/

/-- Claim C2 fails as stated on the code: with a user-configured scope that is
the empty array, `resolveScopes` returns that empty array (JavaScript arrays
are truthy even when empty), not the first non-empty source — here the
`WWW-Authenticate` header scope `"c"`. -/
theorem resolveScopes_claim_counterexample :
    resolveScopes ⟨some (.arr []), some "c", some ["d"], none, none⟩ = [] ∧
      resolveScopes ⟨some (.arr []), some "c", some ["d"], none, none⟩ ≠ ["c"] := by
  decide

/-- Claim C2, amended: `resolveScopes` honours the strict priority order
user scope > header scope > PRM `scopes_supported` > registration scope >
ASM `scopes_supported` > the fallback set, where a source is taken by
JavaScript truthiness: a user scope that is an array is returned verbatim
(even empty), a user or header scope that is a non-empty string is
whitespace-tokenized and returned (even when only whitespace), and the three
list sources apply when non-empty; when every source is absent or falsy the
fallback `["openid", "email", "profile"]` results. -/
theorem resolveScopes_priority :
    (∀ i : ScopeInput, ∀ l, i.userScope = some (.arr l) → resolveScopes i = l) ∧
    (∀ i : ScopeInput, ∀ s, i.userScope = some (.str s) → s ≠ "" →
      resolveScopes i = jsWords s) ∧
    (∀ i : ScopeInput, ∀ h,
      (i.userScope = none ∨ i.userScope = some (.str "")) →
      i.headerScope = some h → h ≠ "" → resolveScopes i = jsWords h) ∧
    (∀ i : ScopeInput, ∀ l,
      (i.userScope = none ∨ i.userScope = some (.str "")) →
      (i.headerScope = none ∨ i.headerScope = some "") →
      i.prmScopes = some l → l ≠ [] → resolveScopes i = l) ∧
    (∀ i : ScopeInput, ∀ l,
      (i.userScope = none ∨ i.userScope = some (.str "")) →
      (i.headerScope = none ∨ i.headerScope = some "") →
      (i.prmScopes = none ∨ i.prmScopes = some []) →
      i.registrationScopes = some l → l ≠ [] → resolveScopes i = l) ∧
    (∀ i : ScopeInput, ∀ l,
      (i.userScope = none ∨ i.userScope = some (.str "")) →
      (i.headerScope = none ∨ i.headerScope = some "") →
      (i.prmScopes = none ∨ i.prmScopes = some []) →
      (i.registrationScopes = none ∨ i.registrationScopes = some []) →
      i.asmScopes = some l → l ≠ [] → resolveScopes i = l) ∧
    (∀ i : ScopeInput,
      (i.userScope = none ∨ i.userScope = some (.str "")) →
      (i.headerScope = none ∨ i.headerScope = some "") →
      (i.prmScopes = none ∨ i.prmScopes = some []) →
      (i.registrationScopes = none ∨ i.registrationScopes = some []) →
      (i.asmScopes = none ∨ i.asmScopes = some []) →
      resolveScopes i = ["openid", "email", "profile"]) := by
  refine ⟨?_, ?_, ?_, ?_, ?_, ?_, ?_⟩
  · rintro ⟨u, h, p, a, r⟩ l hu
    simp only at hu
    subst hu
    rfl
  · rintro ⟨u, h, p, a, r⟩ s hu hs
    simp only at hu
    subst hu
    simp [resolveScopes, hs]
  · rintro ⟨u, h, p, a, r⟩ hd hu hh hne
    simp only at hu hh
    subst hh
    rcases hu with hu | hu <;> subst hu <;>
      simp [resolveScopes, resolveScopesFromHeader, hne]
  · rintro ⟨u, h, p, a, r⟩ l hu hh hp hne
    simp only at hu hh hp
    subst hp
    obtain ⟨x, xs, rfl⟩ : ∃ x xs, l = x :: xs := by
      cases l with
      | nil => exact absurd rfl hne
      | cons x xs => exact ⟨x, xs, rfl⟩
    rcases hu with hu | hu <;> rcases hh with hh | hh <;> subst hu <;> subst hh <;>
      simp [resolveScopes, resolveScopesFromHeader, resolveScopesLists]
  · rintro ⟨u, h, p, a, r⟩ l hu hh hp hr hne
    simp only at hu hh hp hr
    subst hr
    obtain ⟨x, xs, rfl⟩ : ∃ x xs, l = x :: xs := by
      cases l with
      | nil => exact absurd rfl hne
      | cons x xs => exact ⟨x, xs, rfl⟩
    rcases hu with hu | hu <;> rcases hh with hh | hh <;> rcases hp with hp | hp <;>
      subst hu <;> subst hh <;> subst hp <;>
      simp [resolveScopes, resolveScopesFromHeader, resolveScopesLists]
  · rintro ⟨u, h, p, a, r⟩ l hu hh hp hr ha hne
    simp only at hu hh hp hr ha
    subst ha
    obtain ⟨x, xs, rfl⟩ : ∃ x xs, l = x :: xs := by
      cases l with
      | nil => exact absurd rfl hne
      | cons x xs => exact ⟨x, xs, rfl⟩
    rcases hu with hu | hu <;> rcases hh with hh | hh <;> rcases hp with hp | hp <;>
      rcases hr with hr | hr <;> subst hu <;> subst hh <;> subst hp <;> subst hr <;>
      simp [resolveScopes, resolveScopesFromHeader, resolveScopesLists]
  · rintro ⟨u, h, p, a, r⟩ hu hh hp hr ha
    simp only at hu hh hp hr ha
    rcases hu with hu | hu <;> rcases hh with hh | hh <;> rcases hp with hp | hp <;>
      rcases hr with hr | hr <;> rcases ha with ha | ha <;>
      subst hu <;> subst hh <;> subst hp <;> subst hr <;> subst ha <;> rfl

/-- Witness for the amended C2 theorem at the spec's own examples: user scope
`"a b"` beats header `"c"` and PRM `["d"]`; with no user scope the header
scope `"c"` beats PRM `["d"]`. -/
theorem resolveScopes_priority_witness :
    resolveScopes ⟨some (.str "a b"), some "c", some ["d"], none, none⟩ = ["a", "b"] ∧
      resolveScopes ⟨none, some "c", some ["d"], none, none⟩ = ["c"] := by
  constructor
  · have h := resolveScopes_priority.2.1 ⟨some (.str "a b"), some "c", some ["d"], none, none⟩
      "a b" rfl (by decide)
    rw [h]; decide
  · have h := resolveScopes_priority.2.2.1 ⟨none, some "c", some ["d"], none, none⟩
      "c" (Or.inl rfl) rfl (by decide)
    rw [h]; decide

/-! ## Association-list lemmas -/

theorem alGet_alSet_same {α : Type} (m : List (String × α)) (k : String) (v : α) :
    alGet (alSet m k v) k = some v := by
  simp [alGet, alSet, List.find?_cons_of_pos]

theorem alGet_alErase_same {α : Type} (m : List (String × α)) (k : String) :
    alGet (alErase m k) k = none := by
  simp only [alGet, alErase, Option.map_eq_none', List.find?_eq_none, List.mem_filter]
  intro p hp
  simp only [decide_eq_true_eq] at hp
  simpa using hp.2

theorem alErase_idem {α : Type} (m : List (String × α)) (k : String) :
    alErase (alErase m k) k = alErase m k := by
  simp [alErase, List.filter_filter]

theorem alErase_of_get_none {α : Type} {m : List (String × α)} {k : String}
    (h : alGet m k = none) : alErase m k = m := by
  simp only [alGet, Option.map_eq_none', List.find?_eq_none] at h
  refine List.filter_eq_self.mpr ?_
  intro p hp
  simpa using h p hp

/-! ## C8 — `callTool` on a non-connected server -/

/-- Claim C8: on a server whose record is missing, not `connected`, or has no
client attached, `ConnectionManager.callTool` rejects with the NotConnected
error and issues zero network calls to the tool transport; conversely any call
that does reach the transport was made on a `connected` record with a live
client. -/
theorem callTool_not_connected :
    (∀ (conns : List (String × ConnRec)) outcome name sid,
      (∀ r, alGet conns sid = some r → ¬(r.status = .connected ∧ r.hasClient = true)) →
      callToolConn conns outcome name sid =
        (.error ⟨"Server " ++ sid ++ " is not connected or client is missing.", none⟩, 0)) ∧
    (∀ (conns : List (String × ConnRec)) outcome name sid,
      (callToolConn conns outcome name sid).snd ≠ 0 →
      ∃ r, alGet conns sid = some r ∧ r.status = .connected ∧ r.hasClient = true) := by
  constructor
  · intro conns outcome name sid h
    unfold callToolConn
    cases hg : alGet conns sid with
    | none => rfl
    | some r =>
      have hcond := h r hg
      simp [hcond]
  · intro conns outcome name sid h
    unfold callToolConn at h
    cases hg : alGet conns sid with
    | none =>
      rw [hg] at h
      simp at h
    | some r =>
      rw [hg] at h
      by_cases hc : r.status = ConnStatus.connected ∧ r.hasClient = true
      · exact ⟨r, rfl, hc⟩
      · exfalso
        apply h
        simp [hc]

/-- Witness for C8: with no connection records at all, a tool call rejects
with the NotConnected error and a zero network-call count. -/
theorem callTool_not_connected_witness :
    callToolConn ([] : List (String × ConnRec)) (.ok ⟨[], false⟩) "doit" "s1" =
      (.error ⟨"Server s1 is not connected or client is missing.", none⟩, 0) := by
  have h := callTool_not_connected.1 ([] : List (String × ConnRec)) (.ok ⟨[], false⟩) "doit" "s1"
    (by intro r hr; simp [alGet] at hr)
  simpa using h

/-! ## C9 — `disconnect` is an idempotent eviction that never errors -/

/-- Claim C9: `MCPCoordinator.disconnect` deletes the connection record
(releasing the transport handle) and evicts the cached token in every case —
regardless of whether `client.close()` succeeds — after which the status query
reads `disconnected`; it is idempotent; and on an id with no record and no
token it is a no-op. -/
theorem disconnect_idempotent_evicts :
    (∀ (st : CoordState) sid o,
      alGet (coordinatorDisconnect st sid o).conns sid = none ∧
      alGet (coordinatorDisconnect st sid o).tokens sid = none ∧
      getConnectionStatus (coordinatorDisconnect st sid o).conns sid = .disconnected) ∧
    (∀ (st : CoordState) sid o o',
      coordinatorDisconnect (coordinatorDisconnect st sid o) sid o' =
        coordinatorDisconnect st sid o) ∧
    (∀ (st : CoordState) sid o,
      alGet st.conns sid = none → alGet st.tokens sid = none →
      coordinatorDisconnect st sid o = st) := by
  refine ⟨?_, ?_, ?_⟩
  · intro st sid o
    refine ⟨alGet_alErase_same _ _, alGet_alErase_same _ _, ?_⟩
    unfold getConnectionStatus
    rw [show alGet (coordinatorDisconnect st sid o).conns sid = none from
      alGet_alErase_same _ _]
  · intro st sid o o'
    simp [coordinatorDisconnect, closeConnection, alErase_idem]
  · intro st sid o hc ht
    cases st with
    | mk conns tokens =>
      simp only [coordinatorDisconnect, closeConnection]
      rw [alErase_of_get_none hc, alErase_of_get_none ht]

/-- Witness for C9: disconnecting an unknown id on an empty coordinator state
is a no-op and leaves the status `disconnected`. -/
theorem disconnect_idempotent_evicts_witness :
    coordinatorDisconnect ⟨[], []⟩ "ghost" (.ok ()) = (⟨[], []⟩ : CoordState) ∧
      getConnectionStatus (coordinatorDisconnect ⟨[], []⟩ "ghost" (.ok ())).conns "ghost" =
        .disconnected := by
  constructor
  · exact disconnect_idempotent_evicts.2.2 ⟨[], []⟩ "ghost" (.ok ()) (by decide) (by decide)
  · exact (disconnect_idempotent_evicts.1 ⟨[], []⟩ "ghost" (.ok ())).2.2

/-! ## C5 — `setOAuth2Token` expiry and refresh-token handling -/

/-- Claim C5 fails as stated on the code: `setOAuth2Token` stores exactly the
refresh token of the supplied response.  After storing a token with refresh
token `"r"` for `s1`, a second `set` whose response omits the refresh token
leaves `none` in the record — the previous refresh token is not retained by
`set` itself. -/
theorem setOAuth2Token_claim_counterexample :
    (alGet (setOAuth2Token [] "s1" ⟨"a", none, none, some "r", none⟩ 0) "s1").map
        (fun t => t.refresh_token) = some (some "r") ∧
      (alGet (setOAuth2Token (setOAuth2Token [] "s1" ⟨"a", none, none, some "r", none⟩ 0) "s1"
          ⟨"b", none, none, none, none⟩ 5) "s1").map
        (fun t => t.refresh_token) = some none := by
  decide

/-- Claim C5, amended: `setOAuth2Token` stores
`expires_at = now + expires_in * 1000`, substituting 3600 seconds when
`expires_in` is absent or `0` (JavaScript `||`), and stores the refresh token
of the response verbatim (dropping any previously stored one).  Retention of
the previous refresh token happens in the refresh flow instead: a successful
`refreshToken` whose response omits the refresh token carries the old refresh
token forward, so storing its result retains it. -/
theorem setOAuth2Token_expiry_refresh :
    (∀ tokens sid (td : TokenRespM) now e, td.expires_in = some e → e ≠ 0 →
      (alGet (setOAuth2Token tokens sid td now) sid).map (fun t => t.expires_at) =
        some (now + e * 1000)) ∧
    (∀ tokens sid (td : TokenRespM) now,
      (td.expires_in = none ∨ td.expires_in = some 0) →
      (alGet (setOAuth2Token tokens sid td now) sid).map (fun t => t.expires_at) =
        some (now + 3600 * 1000)) ∧
    (∀ tokens sid (td : TokenRespM) now,
      (alGet (setOAuth2Token tokens sid td now) sid).map (fun t => t.refresh_token) =
        some td.refresh_token) ∧
    (∀ tokens sid cfg env now oldRt (ts : TokenRespM) reqs,
      refreshToken oldRt cfg env = (.ok ts, reqs) →
      env.resp1.ok = true → env.resp1.json.refresh_token = none →
      (alGet (setOAuth2Token tokens sid ts now) sid).map (fun t => t.refresh_token) =
        some (some oldRt)) := by
  refine ⟨?_, ?_, ?_, ?_⟩
  · intro tokens sid td now e he hne
    simp only [setOAuth2Token, alGet_alSet_same, Option.map_some']
    cases e with
    | zero => exact absurd rfl hne
    | succ n => simp [jsOrNat, he]
  · intro tokens sid td now h
    rcases h with h | h <;> simp [setOAuth2Token, alGet_alSet_same, jsOrNat, h]
  · intro tokens sid td now
    simp [setOAuth2Token, alGet_alSet_same]
  · intro tokens sid cfg env now oldRt ts reqs href hok hnone
    have hts : ts.refresh_token = some oldRt := by
      unfold refreshToken at href
      cases htu : cfg.tokenUrl with
      | none => rw [htu] at href; simp at href
      | some u =>
        rw [htu] at href
        simp only at href
        rw [if_pos hok] at href
        have : ts = { env.resp1.json with
                        token_type := some (jsOrStr env.resp1.json.token_type "Bearer")
                        expires_in := some (jsOrNat env.resp1.json.expires_in 3600)
                        refresh_token := some (jsOrStr env.resp1.json.refresh_token oldRt) } := by
          have h1 := congrArg Prod.fst href
          simp only at h1
          exact (Except.ok.injEq _ _).mp h1.symm
        rw [this]
        simp [hnone, jsOrStr]
    simp [setOAuth2Token, alGet_alSet_same, hts]

/-- Witness for the amended C5 theorem: a refresh whose response omits the
refresh token, stored via `setOAuth2Token`, retains the old refresh token
`"oldR"`, and an explicit `expires_in` of 120 yields
`expires_at = now + 120000`. -/
theorem setOAuth2Token_expiry_refresh_witness :
    (alGet (setOAuth2Token [] "s1" ⟨"newAT", some "Bearer", some 3600, some "oldR", none⟩ 7)
        "s1").map (fun t => t.refresh_token) = some (some "oldR") ∧
    (alGet (setOAuth2Token [] "s2" ⟨"a", none, some 120, none, none⟩ 50) "s2").map
        (fun t => t.expires_at) = some (50 + 120 * 1000) := by
  constructor
  · exact setOAuth2Token_expiry_refresh.2.2.2 [] "s1"
      ⟨some "https://t/tok", none, some "cid", none, none, none, false⟩
      ⟨⟨true, 200, "", ⟨"newAT", none, none, none, none⟩⟩,
       ⟨true, 200, "", ⟨"x", none, none, none, none⟩⟩⟩ 7 "oldR"
      ⟨"newAT", some "Bearer", some 3600, some "oldR", none⟩ [.noSecret]
      (by decide) (by decide) (by decide)
  · exact setOAuth2Token_expiry_refresh.1 [] "s2" ⟨"a", none, some 120, none, none⟩ 50 120
      rfl (by decide)

/-! ## C4 — bounded dual-auth-method token refresh -/

/-- Claim C4: a refresh request never issues more than two token-endpoint
requests; when the first request (HTTP Basic, because a client secret is
configured) fails with 401 or an `invalid_client` body, exactly one retry is
issued with the client secret in the request body — and a failing retry makes
the whole refresh fail; any other first-request failure is not retried. -/
theorem refreshToken_retry_discipline :
    (∀ rt cfg (env : RefreshEnv), (refreshToken rt cfg env).snd.length ≤ 2) ∧
    (∀ rt cfg (env : RefreshEnv), cfg.tokenUrl.isSome → cfg.clientSecret.isSome →
      env.resp1.ok = false →
      (env.resp1.status = 401 ∨ containsStr env.resp1.body "invalid_client" = true) →
      (refreshToken rt cfg env).snd = [.basicHeader, .secretInBody] ∧
      (env.resp2.ok = false → ∃ e, (refreshToken rt cfg env).fst = .error e)) ∧
    (∀ rt cfg (env : RefreshEnv), cfg.tokenUrl.isSome → cfg.clientSecret.isSome →
      env.resp1.ok = false → env.resp1.status ≠ 401 →
      containsStr env.resp1.body "invalid_client" = false →
      (refreshToken rt cfg env).snd = [.basicHeader] ∧
      ∃ e, (refreshToken rt cfg env).fst = .error e) := by
  refine ⟨?_, ?_, ?_⟩
  · intro rt cfg env
    unfold refreshToken
    cases cfg.tokenUrl with
    | none => simp
    | some u =>
      by_cases h1 : env.resp1.ok = true
      · simp [h1]
      · rw [Bool.not_eq_true] at h1
        by_cases hs : cfg.clientSecret.isSome
        · by_cases hc : env.resp1.status = 401 ∨ containsStr env.resp1.body "invalid_client" = true
          · by_cases h2 : env.resp2.ok = true <;>
              simp [h1, hs, hc, h2]
          · simp only [not_or, Bool.not_eq_true] at hc
            simp [h1, hs, hc.1, hc.2]
        · simp only [Bool.not_eq_true] at hs
          simp [h1, hs]
  · intro rt cfg env htu hs h1 hc
    obtain ⟨u, hu⟩ := Option.isSome_iff_exists.mp htu
    constructor
    · unfold refreshToken
      rw [hu]
      by_cases h2 : env.resp2.ok = true <;> simp [h1, hs, h2, hc]
    · intro h2
      unfold refreshToken
      rw [hu]
      simp [h1, hs, h2, hc]
  · intro rt cfg env htu hs h1 hst hbody
    obtain ⟨u, hu⟩ := Option.isSome_iff_exists.mp htu
    constructor
    · unfold refreshToken
      rw [hu]
      simp [h1, hs, hst, hbody]
    · unfold refreshToken
      rw [hu]
      simp [h1, hs, hst, hbody]

/-- Witness for C4: with a configured secret, a 401 on the Basic-auth request
followed by a failing body-secret retry yields exactly the request sequence
`[basicHeader, secretInBody]` and an error result. -/
theorem refreshToken_retry_discipline_witness :
    (refreshToken "rt" ⟨some "https://t/tok", none, some "cid", some "sec", none, none, false⟩
        ⟨⟨false, 401, "unauthorized", ⟨"", none, none, none, none⟩⟩,
         ⟨false, 400, "still bad", ⟨"", none, none, none, none⟩⟩⟩).snd =
      [.basicHeader, .secretInBody] ∧
    ∃ e, (refreshToken "rt" ⟨some "https://t/tok", none, some "cid", some "sec", none, none, false⟩
        ⟨⟨false, 401, "unauthorized", ⟨"", none, none, none, none⟩⟩,
         ⟨false, 400, "still bad", ⟨"", none, none, none, none⟩⟩⟩).fst = .error e := by
  have h := refreshToken_retry_discipline.2.1 "rt"
    ⟨some "https://t/tok", none, some "cid", some "sec", none, none, false⟩
    ⟨⟨false, 401, "unauthorized", ⟨"", none, none, none, none⟩⟩,
     ⟨false, 400, "still bad", ⟨"", none, none, none, none⟩⟩⟩
    (by decide) (by decide) (by decide) (Or.inl (by decide))
  exact ⟨h.1, h.2 (by decide)⟩

/-! ## Discovery lemmas -/

theorem fetchFirstPrm_all_fail (env : String → FetchOutcome) :
    ∀ L : List String, (∀ u ∈ L, okJson (env u) = none) →
      fetchFirstPrm env L = (none, L) := by
  intro L
  induction L with
  | nil => intro _; rfl
  | cons u rest ih =>
    intro h
    have hu := h u (List.mem_cons_self u rest)
    have hrest := ih (fun v hv => h v (List.mem_cons_of_mem u hv))
    unfold fetchFirstPrm
    cases he : env u with
    | fail code => simp [hrest]
    | resp r =>
      rw [he] at hu
      simp only [okJson] at hu
      by_cases hok : okStatus r.status = true
      · rw [if_pos hok] at hu
        simp [hok, hu, hrest]
      · rw [Bool.not_eq_true] at hok
        simp [hok, hrest]

theorem fetchFirstDoc_all_fail (env : String → FetchOutcome) :
    ∀ L : List String, (∀ u ∈ L, okJson (env u) = none) →
      fetchFirstDoc env L = none := by
  intro L
  induction L with
  | nil => intro _; rfl
  | cons u rest ih =>
    intro h
    have hu := h u (List.mem_cons_self u rest)
    have hrest := ih (fun v hv => h v (List.mem_cons_of_mem u hv))
    unfold fetchFirstDoc
    cases he : env u with
    | fail code => simp [hrest]
    | resp r =>
      rw [he] at hu
      simp only [okJson] at hu
      by_cases hok : okStatus r.status = true
      · rw [if_pos hok] at hu
        simp [hok, hu, hrest]
      · rw [Bool.not_eq_true] at hok
        simp [hok, hrest]

/-! ## C7 — a 200 probe short-circuits discovery -/

/-- Claim C7: when the unauthenticated probe of the resource URL returns
HTTP 200, `discoverOAuthConfiguration` returns `none` and the only network
request issued is that probe — no Protected-Resource-Metadata,
Authorization-Server-Metadata or OpenID discovery fetch happens. -/
theorem discover_probe_200 :
    ∀ (env : String → FetchOutcome) serverUrl origin pathname r,
      env serverUrl = .resp r → r.status = 200 →
      discoverOAuthConfiguration env serverUrl origin pathname = (none, [serverUrl]) := by
  intro env serverUrl origin pathname r he hr
  unfold discoverOAuthConfiguration
  rw [he]
  simp [hr, okStatus]

/-- Witness for C7 at a concrete environment answering every URL with 200. -/
theorem discover_probe_200_witness :
    discoverOAuthConfiguration (fun _ => .resp ⟨200, none, none, none⟩)
      "https://r/x" "https://r" "/x" = (none, ["https://r/x"]) :=
  discover_probe_200 (fun _ => .resp ⟨200, none, none, none⟩) "https://r/x" "https://r" "/x"
    ⟨200, none, none, none⟩ rfl rfl

/-! ## C6 — 401 probe with an empty discovery cascade -/

/-- Claim C6 fails as stated on the coordinator's discovery implementation:
with a 401 probe and no Protected-Resource-Metadata anywhere (404 on every
other URL), `OAuthHandler.discoverOAuthConfiguration` returns `none` — not a
partial result with `requiresAuth` — because of its early
`if (!prm) return null`. -/
theorem discover_401_counterexample :
    (discoverOAuthConfiguration
        (fun u => if u = "https://r/api" then .resp ⟨401, none, none, none⟩
                  else .resp ⟨404, none, none, none⟩)
        "https://r/api" "https://r" "/api").fst = none ∧
      ((fun (u : String) => if u = "https://r/api" then FetchOutcome.resp ⟨401, none, none, none⟩
                  else FetchOutcome.resp ⟨404, none, none, none⟩)
        "https://r/api") = .resp ⟨401, none, none, none⟩ := by
  constructor
  · decide
  · decide

/-- Claim C6, amended: the two discovery implementations diverge here.  The
coordinator's `discoverOAuthConfiguration` returns `none` whenever no PRM
document is found, even after a 401 probe.  The `/discover-oauth` endpoint's
`discoverOAuthWithMultipleMethods` does return the partial result: whenever no
ASM and no OIDC metadata is found and the probe of the server URL returns 401,
it yields a result carrying `requiresAuth = true` and the inferred scopes
only, with no endpoints. -/
theorem discover_partial_on_401 :
    (∀ (env : String → FetchOutcome) serverUrl origin pathname r,
      env serverUrl = .resp r → r.status = 401 →
      (∀ u, okJson (env u) = none) →
      (discoverOAuthConfiguration env serverUrl origin pathname).fst = none) ∧
    (∀ (env : String → FetchOutcome) serverUrl origin r,
      (∀ u, okJson (env (u ++ wellKnownAsm)) = none) →
      (∀ u, okJson (env (u ++ wellKnownOidc)) = none) →
      env serverUrl = .resp r → r.status = 401 →
      (discoverOAuthWithMultipleMethods env serverUrl origin).map
          (fun d => (d.tokenEndpoint, d.authorizationEndpoint, d.registrationUrl,
                     d.requiresAuth, d.scopesSupported.isSome)) =
        some (none, none, none, true, true)) := by
  constructor
  · intro env serverUrl origin pathname r he hr hall
    have hcand := fetchFirstPrm_all_fail env
      ((match r.wwwAuthMeta with | some u => [u] | none => []) ++
        [origin ++ wellKnownPrm ++ (if pathname = "/" then "" else pathname),
         origin ++ wellKnownPrm]) (fun u _ => hall u)
    unfold discoverOAuthConfiguration
    rw [he]
    simp [hr, discoverStep2, hcand]
  · intro env serverUrl origin r hasm hoidc he hr
    have hA : ∀ L : List String,
        fetchFirstDoc env (L.map (fun s => s ++ wellKnownAsm)) = none := by
      intro L
      apply fetchFirstDoc_all_fail
      intro v hv
      rw [List.mem_map] at hv
      obtain ⟨s, _, rfl⟩ := hv
      exact hasm s
    have hO : ∀ L : List String,
        fetchFirstDoc env (L.map (fun s => s ++ wellKnownOidc)) = none := by
      intro L
      apply fetchFirstDoc_all_fail
      intro v hv
      rw [List.mem_map] at hv
      obtain ⟨s, _, rfl⟩ := hv
      exact hoidc s
    unfold discoverOAuthWithMultipleMethods
    dsimp only
    rw [hA]
    dsimp only
    rw [hO, he]
    simp [hr]

/-- Witness for the amended C6 theorem: on a network answering 401 on the
resource and 404 everywhere else the coordinator's discovery yields `none`,
while the endpoint's multi-method discovery yields the partial
`requiresAuth = true` result with scopes and no endpoints. -/
theorem discover_partial_on_401_witness :
    (discoverOAuthConfiguration
        (fun u => if u = "https://r/api" then .resp ⟨401, none, none, none⟩
                  else .resp ⟨404, none, none, none⟩)
        "https://r/api" "https://r" "/api").fst = none ∧
      (discoverOAuthWithMultipleMethods (fun _ => .resp ⟨401, none, none, none⟩)
          "https://s/u" "https://s").map
        (fun d => (d.tokenEndpoint, d.authorizationEndpoint, d.registrationUrl,
                   d.requiresAuth, d.scopesSupported.isSome)) =
        some (none, none, none, true, true) := by
  constructor
  · exact discover_partial_on_401.1 _ "https://r/api" "https://r" "/api" ⟨401, none, none, none⟩
      rfl rfl (by intro u; by_cases h : u = "https://r/api" <;> simp [h, okJson, okStatus])
  · exact discover_partial_on_401.2 _ "https://s/u" "https://s" ⟨401, none, none, none⟩
      (fun _ => rfl) (fun _ => rfl) rfl rfl

/-! ## Connect pipeline lemmas -/

theorem getConnectionStatus_alSet (conns : List (String × ConnRec)) (sid : String) (r : ConnRec) :
    getConnectionStatus (alSet conns sid r) sid = r.status := by
  unfold getConnectionStatus
  rw [alGet_alSet_same]

theorem establishConnection_not_connected (conns : List (String × ConnRec)) (sid : String)
    (o : Except ErrInfo Unit) (k : AttemptKind)
    (h : getConnectionStatus conns sid ≠ .connected) :
    establishConnection conns sid o k = establishConnectionGo conns sid o k := by
  unfold establishConnection
  unfold getConnectionStatus at h
  cases hg : alGet conns sid with
  | none => rfl
  | some r =>
    rw [hg] at h
    dsimp only at h ⊢
    rw [if_neg h]

theorem establishConnection_attempts (conns : List (String × ConnRec)) (sid : String)
    (o : Except ErrInfo Unit) (k : AttemptKind) :
    (establishConnection conns sid o k).2.2 = [] ∨
      (establishConnection conns sid o k).2.2 = [k] := by
  unfold establishConnection establishConnectionGo
  cases alGet conns sid with
  | none => cases o <;> simp
  | some r =>
    by_cases h : r.status = ConnStatus.connected
    · simp [h]
    · cases o <;> simp [h]

theorem connectFallbackPhase_attempts (st : CoordState) (srv : ServerM) (env : ConnectEnv)
    (cfg : Option OAuth2Cfg) (ce : ErrInfo) (a1 : List AttemptKind)
    (hsse : isSSEConnectionError ce.message = true)
    (hst : getConnectionStatus st.conns srv.id ≠ .connected) :
    (connectFallbackPhase st srv env cfg ce a1).2.2 = a1 ++ [.stateless] := by
  unfold connectFallbackPhase
  rw [if_pos hsse, establishConnection_not_connected _ _ _ _ hst]
  unfold establishConnectionGo
  cases env.connectFallback with
  | ok _ => rfl
  | error fe =>
    dsimp only
    cases cfg <;>
      cases haf : env.authFallback <;>
        simp [connectCatch] <;>
          split <;> rfl

theorem connectFallbackPhase_count_le (st : CoordState) (srv : ServerM) (env : ConnectEnv)
    (cfg : Option OAuth2Cfg) (ce : ErrInfo) (a1 : List AttemptKind)
    (h0 : a1.count AttemptKind.stateless = 0) :
    ((connectFallbackPhase st srv env cfg ce a1).2.2).count AttemptKind.stateless ≤ 1 := by
  unfold connectFallbackPhase
  by_cases hsse : isSSEConnectionError ce.message = true
  · rw [if_pos hsse]
    rcases hE : establishConnection st.conns srv.id env.connectFallback .stateless
      with ⟨c2, r2, a2⟩
    have ha2 := establishConnection_attempts st.conns srv.id env.connectFallback .stateless
    rw [hE] at ha2
    dsimp only at ha2 ⊢
    have hcount : (a1 ++ a2).count AttemptKind.stateless ≤ 1 := by
      rcases ha2 with h | h <;> subst h <;> simp [List.count_append, h0]
    cases r2 with
    | ok _ => simpa using hcount
    | error fe =>
      dsimp only
      split
      · split <;> simpa [connectCatch] using hcount
      · simpa [connectCatch] using hcount
  · rw [if_neg hsse]
    simp [connectCatch, h0]

theorem connectTransportPhase_count_le (st : CoordState) (srv : ServerM) (env : ConnectEnv)
    (cfg : Option OAuth2Cfg) (pae : Option ErrInfo) :
    ((connectTransportPhase st srv env cfg pae).2.2).count AttemptKind.stateless ≤ 1 := by
  unfold connectTransportPhase
  have hk : (if srv.type = "http-direct" then AttemptKind.primaryStreamable
             else AttemptKind.primarySSE) ≠ AttemptKind.stateless := by
    split <;> decide
  rcases hE : establishConnection st.conns srv.id env.connectPrimary
      (if srv.type = "http-direct" then AttemptKind.primaryStreamable
       else AttemptKind.primarySSE) with ⟨c1, r1, a1⟩
  have ha1 := establishConnection_attempts st.conns srv.id env.connectPrimary
    (if srv.type = "http-direct" then AttemptKind.primaryStreamable
     else AttemptKind.primarySSE)
  rw [hE] at ha1
  dsimp only at ha1 ⊢
  rw [hE]
  have h0 : a1.count AttemptKind.stateless = 0 := by
    rcases ha1 with h | h <;> subst h
    · simp
    · simp [List.count_cons, hk]
  cases r1 with
  | ok _ => simp [h0]
  | error ce =>
    dsimp only
    cases pae with
    | none => exact connectFallbackPhase_count_le _ _ _ _ _ _ h0
    | some pe =>
      dsimp only
      by_cases hia : isAuthenticationError ce.message = true
      · rw [if_pos hia]
        simp [connectCatch, h0]
      · rw [if_neg hia]
        exact connectFallbackPhase_count_le _ _ _ _ _ _ h0

theorem connectTransportPhase_primary_error (st : CoordState) (srv : ServerM)
    (env : ConnectEnv) (cfg : Option OAuth2Cfg) (ce : ErrInfo)
    (hst : getConnectionStatus st.conns srv.id ≠ .connected)
    (hpc : env.connectPrimary = .error ce) :
    connectTransportPhase st srv env cfg none =
      connectFallbackPhase
        ⟨alSet (alSet st.conns srv.id ⟨.connecting, none, none, true⟩) srv.id
            ⟨.errorS, some ce.message, none, true⟩, st.tokens⟩
        srv env cfg ce
        [if srv.type = "http-direct" then AttemptKind.primaryStreamable
         else AttemptKind.primarySSE] := by
  unfold connectTransportPhase
  dsimp only
  rw [establishConnection_not_connected _ _ _ _ hst, hpc]
  unfold establishConnectionGo
  dsimp only

theorem connectFallbackPhase_sse_ok (st : CoordState) (srv : ServerM) (env : ConnectEnv)
    (cfg : Option OAuth2Cfg) (ce : ErrInfo) (a1 : List AttemptKind)
    (hsse : isSSEConnectionError ce.message = true)
    (hst : getConnectionStatus st.conns srv.id ≠ .connected)
    (hcf : env.connectFallback = .ok ()) :
    connectFallbackPhase st srv env cfg ce a1 =
      (⟨alSet (alSet st.conns srv.id ⟨.connecting, none, none, true⟩) srv.id
          ⟨.connected, none, none, true⟩, st.tokens⟩, .ok (), a1 ++ [.stateless]) := by
  unfold connectFallbackPhase
  rw [if_pos hsse, establishConnection_not_connected _ _ _ _ hst, hcf]
  unfold establishConnectionGo
  dsimp only

theorem connectFallbackPhase_suppressed (st : CoordState) (srv : ServerM) (env : ConnectEnv)
    (oc : OAuth2Cfg) (ce fae fe : ErrInfo) (a1 : List AttemptKind)
    (hsse : isSSEConnectionError ce.message = true)
    (hst : getConnectionStatus st.conns srv.id ≠ .connected)
    (haf : env.authFallback = .error fae)
    (hcf : env.connectFallback = .error fe)
    (hauth : isAuthenticationError fe.message = true) :
    (connectFallbackPhase st srv env (some oc) ce a1).2.1 = .error fae := by
  unfold connectFallbackPhase
  rw [if_pos hsse, establishConnection_not_connected _ _ _ _ hst, hcf, haf]
  unfold establishConnectionGo
  dsimp only
  simp [connectCatch, hauth]

theorem connectFallbackPhase_not_sse (st : CoordState) (srv : ServerM) (env : ConnectEnv)
    (cfg : Option OAuth2Cfg) (ce : ErrInfo) (a1 : List AttemptKind)
    (hsse : isSSEConnectionError ce.message = false) :
    connectFallbackPhase st srv env cfg ce a1 = connectCatch st srv ce a1 := by
  unfold connectFallbackPhase
  have h : ¬ (isSSEConnectionError ce.message = true) := by simp [hsse]
  rw [if_neg h]

theorem coordinatorConnect_reaches_transport (st : CoordState) (srv : ServerM)
    (env : ConnectEnv) (s : String)
    (hst : getConnectionStatus st.conns srv.id ≠ .connected)
    (htype : srv.type = "http" ∨ srv.type = "sse" ∨ srv.type = "http-direct")
    (hap : env.authPrimary = .ok s) :
    coordinatorConnect st srv env =
      connectTransportPhase st srv env
        (connectRegistrationPhase (connectDiscoveryPhase srv.cfg.oauth2 env).1
          (connectDiscoveryPhase srv.cfg.oauth2 env).2 env) none := by
  unfold coordinatorConnect
  rw [if_neg hst]
  rcases hd : connectDiscoveryPhase srv.cfg.oauth2 env with ⟨disc, cfg1⟩
  rw [hap]
  split
  · dsimp only
    split
    · rename_i pe heq
      rw [ite_self] at heq
      exact Option.noConfusion heq
    · rfl
  · exfalso
    rcases htype with ht | ht | ht <;> simp [ht] at *

/-! ## C10 — non-HTTP server types resolve without connecting -/

/-- Claim C10: for a server whose declared type is none of `http`, `sse`,
`http-direct` (for example `stdio`), the coordinator's `connect` resolves with
no error, attempts no transport handshake and leaves the state untouched, so
a status query for a previously unknown id reads `disconnected`. -/
theorem connect_non_http_noop :
    (∀ (st : CoordState) (srv : ServerM) (env : ConnectEnv),
      ¬(srv.type = "http" ∨ srv.type = "sse" ∨ srv.type = "http-direct") →
      coordinatorConnect st srv env = (st, .ok (), [])) ∧
    (∀ (st : CoordState) (srv : ServerM) (env : ConnectEnv),
      ¬(srv.type = "http" ∨ srv.type = "sse" ∨ srv.type = "http-direct") →
      alGet st.conns srv.id = none →
      getConnectionStatus (coordinatorConnect st srv env).1.conns srv.id = .disconnected) := by
  have main : ∀ (st : CoordState) (srv : ServerM) (env : ConnectEnv),
      ¬(srv.type = "http" ∨ srv.type = "sse" ∨ srv.type = "http-direct") →
      coordinatorConnect st srv env = (st, .ok (), []) := by
    intro st srv env h
    push_neg at h
    obtain ⟨h1, h2, h3⟩ := h
    unfold coordinatorConnect
    by_cases hst : getConnectionStatus st.conns srv.id = ConnStatus.connected
    · rw [if_pos hst]
    · rw [if_neg hst]
      have hb : ¬ ((srv.type = "http" || srv.type = "sse" || srv.type = "http-direct") = true) := by
        simp [h1, h2, h3]
      rw [if_neg hb]
  constructor
  · exact main
  · intro st srv env h hget
    rw [main st srv env h]
    unfold getConnectionStatus
    rw [hget]

/-- Witness for C10 at a concrete `stdio` server on the empty state. -/
theorem connect_non_http_noop_witness :
    coordinatorConnect ⟨[], []⟩ ⟨"s1", "local", "stdio", ⟨"unused", none⟩⟩
        ⟨none, none, .ok "", .ok (), .ok "", .ok ()⟩ = (⟨[], []⟩, .ok (), []) ∧
      getConnectionStatus (coordinatorConnect ⟨[], []⟩ ⟨"s1", "local", "stdio", ⟨"unused", none⟩⟩
          ⟨none, none, .ok "", .ok (), .ok "", .ok ()⟩).1.conns "s1" = .disconnected := by
  constructor
  · exact connect_non_http_noop.1 ⟨[], []⟩ ⟨"s1", "local", "stdio", ⟨"unused", none⟩⟩
      ⟨none, none, .ok "", .ok (), .ok "", .ok ()⟩ (by decide)
  · exact connect_non_http_noop.2 ⟨[], []⟩ ⟨"s1", "local", "stdio", ⟨"unused", none⟩⟩
      ⟨none, none, .ok "", .ok (), .ok "", .ok ()⟩ (by decide) (by decide)

theorem getConnectionStatus_registerConnectionState (conns : List (String × ConnRec))
    (sid : String) (status : ConnStatus) (e : Option String) (u : Option String) :
    getConnectionStatus (registerConnectionState conns sid status e u) sid = status := by
  unfold registerConnectionState
  cases alGet conns sid <;> simp [getConnectionStatus_alSet]

theorem connectDiscoveryPhase_no_result (cfgOauth : Option OAuth2Cfg) (env : ConnectEnv)
    (h : env.discovery = none) :
    connectDiscoveryPhase cfgOauth env = (none, cfgOauth) := by
  unfold connectDiscoveryPhase
  rw [h]
  split
  · rename_i d heq
    exact Option.noConfusion heq
  · rw [ite_self]

theorem connectRegistrationPhase_none (c : Option OAuth2Cfg) (env : ConnectEnv) :
    connectRegistrationPhase none c env = c := rfl

/-! ## C3 — transport fallback discipline -/

/-- Claim C3 fails as stated on the code: a primary handshake failure that is a
pure authentication failure ("Authentication failed (401)"), with no auth error
suppressed while preparing headers, triggers no fallback — but the connection
record ends in `error`, not in `AuthRequired`: the catch block classifies by
the substrings "authorize" / "token expired" / a `connectUrl` property, none of
which a bare 401 message carries. -/
theorem connect_401_claim_counterexample :
    ((coordinatorConnect ⟨[], []⟩ ⟨"s1", "srv", "http", ⟨"http://x", none⟩⟩
        ⟨none, none, .ok "h", .error ⟨"Authentication failed (401)", none⟩,
         .ok "h", .ok ()⟩).2.2).count AttemptKind.stateless = 0 ∧
    getConnectionStatus (coordinatorConnect ⟨[], []⟩ ⟨"s1", "srv", "http", ⟨"http://x", none⟩⟩
        ⟨none, none, .ok "h", .error ⟨"Authentication failed (401)", none⟩,
         .ok "h", .ok ()⟩).1.conns "s1" = .errorS ∧
    getConnectionStatus (coordinatorConnect ⟨[], []⟩ ⟨"s1", "srv", "http", ⟨"http://x", none⟩⟩
        ⟨none, none, .ok "h", .error ⟨"Authentication failed (401)", none⟩,
         .ok "h", .ok ()⟩).1.conns "s1" ≠ .authRequired := by
  refine ⟨by decide, by decide, by decide⟩

/-- Claim C3, amended: during one `connect()` call at most one stateless
downgrade ever happens; a primary failure matching the SSE-unsupported pattern
(404/405/202/body mismatch) triggers exactly one stateless fallback; a primary
failure not matching that pattern (e.g. a bare 401) triggers no fallback and is
rethrown, the record being classified `AuthRequired` only when the error
message matches the auth patterns ("authorize", "token expired", or an
attached connect URL) and `Error` otherwise; when an auth error was suppressed
while re-deriving headers for the fallback and the fallback fails with a 401,
that suppressed error is the one surfaced; and a 404 primary failure followed
by a successful stateless fallback ends the connection `Connected`. -/
theorem connect_fallback_discipline :
    (∀ (st : CoordState) (srv : ServerM) (env : ConnectEnv),
      ((coordinatorConnect st srv env).2.2).count AttemptKind.stateless ≤ 1) ∧
    (∀ (st : CoordState) (srv : ServerM) (env : ConnectEnv) (ce : ErrInfo) (s : String),
      getConnectionStatus st.conns srv.id ≠ .connected →
      (srv.type = "http" ∨ srv.type = "sse" ∨ srv.type = "http-direct") →
      env.authPrimary = .ok s → env.connectPrimary = .error ce →
      isSSEConnectionError ce.message = true →
      ((coordinatorConnect st srv env).2.2).count AttemptKind.stateless = 1) ∧
    (∀ (st : CoordState) (srv : ServerM) (env : ConnectEnv) (ce : ErrInfo) (s : String),
      getConnectionStatus st.conns srv.id ≠ .connected →
      (srv.type = "http" ∨ srv.type = "sse" ∨ srv.type = "http-direct") →
      env.authPrimary = .ok s → env.connectPrimary = .error ce →
      isSSEConnectionError ce.message = false →
      ((coordinatorConnect st srv env).2.2).count AttemptKind.stateless = 0 ∧
      (coordinatorConnect st srv env).2.1 = .error ce ∧
      getConnectionStatus (coordinatorConnect st srv env).1.conns srv.id =
        (if isAuthErrorInfo ce then .authRequired else .errorS)) ∧
    (∀ (st : CoordState) (srv : ServerM) (env : ConnectEnv) (oc : OAuth2Cfg)
        (ce fae fe : ErrInfo) (s : String),
      getConnectionStatus st.conns srv.id ≠ .connected →
      (srv.type = "http" ∨ srv.type = "sse" ∨ srv.type = "http-direct") →
      srv.cfg.oauth2 = some oc → env.discovery = none →
      env.authPrimary = .ok s → env.connectPrimary = .error ce →
      isSSEConnectionError ce.message = true →
      env.authFallback = .error fae → env.connectFallback = .error fe →
      isAuthenticationError fe.message = true →
      (coordinatorConnect st srv env).2.1 = .error fae) ∧
    (∀ (st : CoordState) (srv : ServerM) (env : ConnectEnv) (ce : ErrInfo) (s : String),
      getConnectionStatus st.conns srv.id ≠ .connected →
      (srv.type = "http" ∨ srv.type = "sse" ∨ srv.type = "http-direct") →
      env.authPrimary = .ok s → env.connectPrimary = .error ce →
      isSSEConnectionError ce.message = true → env.connectFallback = .ok () →
      (coordinatorConnect st srv env).2.1 = .ok () ∧
      getConnectionStatus (coordinatorConnect st srv env).1.conns srv.id = .connected) := by
  refine ⟨?_, ?_, ?_, ?_, ?_⟩
  · intro st srv env
    unfold coordinatorConnect
    split
    · simp
    · split
      · rcases hd : connectDiscoveryPhase srv.cfg.oauth2 env with ⟨disc, cfg1⟩
        dsimp only
        split
        · split
          · simp [connectCatch]
          · exact connectTransportPhase_count_le _ _ _ _ _
        · exact connectTransportPhase_count_le _ _ _ _ _
      · simp
  · intro st srv env ce s hst htype hap hpc hsse
    rw [coordinatorConnect_reaches_transport st srv env s hst htype hap]
    rw [connectTransportPhase_primary_error _ _ _ _ _ hst hpc]
    rw [connectFallbackPhase_attempts _ _ _ _ _ _ hsse
      (by rw [getConnectionStatus_alSet]; exact fun hcon => ConnStatus.noConfusion hcon)]
    split <;> decide
  · intro st srv env ce s hst htype hap hpc hsse
    rw [coordinatorConnect_reaches_transport st srv env s hst htype hap]
    rw [connectTransportPhase_primary_error _ _ _ _ _ hst hpc]
    rw [connectFallbackPhase_not_sse _ _ _ _ _ _ hsse]
    unfold connectCatch
    refine ⟨by dsimp only; split <;> decide, rfl, ?_⟩
    dsimp only
    rw [getConnectionStatus_registerConnectionState]
  · intro st srv env oc ce fae fe s hst htype hoc hdisc hap hpc hsse haf hcf hfa
    rw [coordinatorConnect_reaches_transport st srv env s hst htype hap]
    rw [connectDiscoveryPhase_no_result srv.cfg.oauth2 env hdisc]
    dsimp only
    rw [connectRegistrationPhase_none, hoc]
    rw [connectTransportPhase_primary_error _ _ _ _ _ hst hpc]
    exact connectFallbackPhase_suppressed _ _ _ _ _ _ _ _ hsse
      (by rw [getConnectionStatus_alSet]; exact fun hcon => ConnStatus.noConfusion hcon) haf hcf hfa
  · intro st srv env ce s hst htype hap hpc hsse hcf
    rw [coordinatorConnect_reaches_transport st srv env s hst htype hap]
    rw [connectTransportPhase_primary_error _ _ _ _ _ hst hpc]
    rw [connectFallbackPhase_sse_ok _ _ _ _ _ _ hsse
      (by rw [getConnectionStatus_alSet]; exact fun hcon => ConnStatus.noConfusion hcon) hcf]
    exact ⟨rfl, by rw [getConnectionStatus_alSet]⟩

/-- Witness for the amended C3 theorem: a primary 404 handshake failure
followed by a successful stateless fallback ends `Connected` with exactly one
stateless attempt, on a concrete server and environment. -/
theorem connect_fallback_discipline_witness :
    (coordinatorConnect ⟨[], []⟩ ⟨"s1", "srv", "http", ⟨"http://x", none⟩⟩
        ⟨none, none, .ok "h", .error ⟨"HTTP Error 404: nope", none⟩, .ok "h", .ok ()⟩).2.1 =
      .ok () ∧
    getConnectionStatus (coordinatorConnect ⟨[], []⟩ ⟨"s1", "srv", "http", ⟨"http://x", none⟩⟩
        ⟨none, none, .ok "h", .error ⟨"HTTP Error 404: nope", none⟩, .ok "h", .ok ()⟩).1.conns
        "s1" = .connected ∧
    ((coordinatorConnect ⟨[], []⟩ ⟨"s1", "srv", "http", ⟨"http://x", none⟩⟩
        ⟨none, none, .ok "h", .error ⟨"HTTP Error 404: nope", none⟩,
         .ok "h", .ok ()⟩).2.2).count AttemptKind.stateless = 1 := by
  have he := connect_fallback_discipline.2.2.2.2 ⟨[], []⟩
    ⟨"s1", "srv", "http", ⟨"http://x", none⟩⟩
    ⟨none, none, .ok "h", .error ⟨"HTTP Error 404: nope", none⟩, .ok "h", .ok ()⟩
    ⟨"HTTP Error 404: nope", none⟩ "h" (by decide) (Or.inl rfl) rfl rfl (by decide) rfl
  have hc := connect_fallback_discipline.2.1 ⟨[], []⟩
    ⟨"s1", "srv", "http", ⟨"http://x", none⟩⟩
    ⟨none, none, .ok "h", .error ⟨"HTTP Error 404: nope", none⟩, .ok "h", .ok ()⟩
    ⟨"HTTP Error 404: nope", none⟩ "h" (by decide) (Or.inl rfl) rfl rfl (by decide)
  exact ⟨he.1, he.2, hc⟩

/-! ## State-codec lemmas: serialization -/

theorem natLEBFuel_lt (fuel : Nat) : ∀ n, ∀ b ∈ natLEBFuel fuel n, b < 256 := by
  induction fuel with
  | zero => intro n b hb; simp [natLEBFuel] at hb
  | succ fuel ih =>
    intro n b hb
    unfold natLEBFuel at hb
    by_cases h : n < 128
    · rw [if_pos h] at hb
      simp at hb
      omega
    · rw [if_neg h] at hb
      rcases List.mem_cons.mp hb with h1 | h1
      · omega
      · exact ih (n / 128) b h1

theorem natLEB_lt (n : Nat) : ∀ b ∈ natLEB n, b < 256 :=
  natLEBFuel_lt (n + 1) n

theorem lebParse_natLEBFuel (fuel : Nat) :
    ∀ n rest, n < fuel → lebParse (natLEBFuel fuel n ++ rest) = some (n, rest) := by
  induction fuel with
  | zero => intro n rest h; omega
  | succ fuel ih =>
    intro n rest hfuel
    unfold natLEBFuel
    by_cases h : n < 128
    · rw [if_pos h]
      simp [lebParse, h]
    · rw [if_neg h]
      rw [List.cons_append]
      unfold lebParse
      have h1 : ¬ (n % 128 + 128 < 128) := by omega
      rw [if_neg h1]
      have hdiv : n / 128 < n := Nat.div_lt_self (by omega) (by omega)
      rw [ih (n / 128) rest (by omega)]
      dsimp only
      have : n / 128 * 128 + (n % 128 + 128 - 128) = n := by omega
      rw [this]

theorem lebParse_natLEB (n : Nat) : ∀ rest, lebParse (natLEB n ++ rest) = some (n, rest) :=
  fun rest => lebParse_natLEBFuel (n + 1) n rest (by omega)

theorem charsBytes_lt (cs : List Char) : ∀ b ∈ charsBytes cs, b < 256 := by
  induction cs with
  | nil => intro b hb; simp [charsBytes] at hb
  | cons c cs ih =>
    intro b hb
    unfold charsBytes at hb
    rcases List.mem_append.mp hb with h | h
    · exact natLEB_lt _ b h
    · exact ih b h

theorem charsParse_charsBytes (cs : List Char) :
    ∀ rest, charsParse cs.length (charsBytes cs ++ rest) = some (cs, rest) := by
  induction cs with
  | nil => intro rest; rfl
  | cons c cs ih =>
    intro rest
    show charsParse (cs.length + 1) ((natLEB c.toNat ++ charsBytes cs) ++ rest) = _
    unfold charsParse
    rw [List.append_assoc, lebParse_natLEB]
    dsimp only
    have hv : (Char.ofNat c.toNat).toNat = c.toNat := by rw [Char.ofNat_toNat]
    rw [if_pos hv, ih rest]
    dsimp only
    rw [Char.ofNat_toNat]

theorem strBytes_lt (s : String) : ∀ b ∈ strBytes s, b < 256 := by
  intro b hb
  unfold strBytes at hb
  rcases List.mem_append.mp hb with h | h
  · exact natLEB_lt _ b h
  · exact charsBytes_lt _ b h

theorem strParse_strBytes (s : String) :
    ∀ rest, strParse (strBytes s ++ rest) = some (s, rest) := by
  intro rest
  unfold strBytes strParse
  rw [List.append_assoc, lebParse_natLEB]
  simp only []
  rw [charsParse_charsBytes]

theorem serializeState_lt (d : PKCEStateData) : ∀ b ∈ serializeState d, b < 256 := by
  intro b hb
  unfold serializeState at hb
  rcases List.mem_append.mp hb with h | h
  · rcases List.mem_append.mp h with h1 | h1
    · rcases List.mem_append.mp h1 with h2 | h2
      · exact strBytes_lt _ b h2
      · exact strBytes_lt _ b h2
    · exact strBytes_lt _ b h1
  · exact natLEB_lt _ b h

theorem parseState_serializeState (d : PKCEStateData) :
    parseState (serializeState d) = some d := by
  unfold serializeState parseState
  rw [List.append_assoc, List.append_assoc, strParse_strBytes]
  simp only []
  rw [strParse_strBytes]
  simp only []
  rw [strParse_strBytes]
  simp only []
  have : natLEB d.createdAt = natLEB d.createdAt ++ [] := by simp
  rw [this, lebParse_natLEB]

/-! ## State-codec lemmas: keystream cipher -/

theorem xorStream_involutive (iv : List Nat) :
    ∀ i bs, xorStream iv i (xorStream iv i bs) = bs := by
  intro i bs
  induction bs generalizing i with
  | nil => rfl
  | cons b bs ih =>
    simp only [xorStream]
    rw [ih (i + 1), Nat.xor_assoc, Nat.xor_self, Nat.xor_zero]

theorem ksByte_lt (iv : List Nat) (i : Nat) : ksByte iv i < 256 := by
  unfold ksByte
  omega

theorem xorStream_lt (iv : List Nat) :
    ∀ i bs, (∀ x ∈ bs, x < 256) → ∀ b ∈ xorStream iv i bs, b < 256 := by
  intro i bs
  induction bs generalizing i with
  | nil => intro _ b hb; simp [xorStream] at hb
  | cons x xs ih =>
    intro h b hb
    unfold xorStream at hb
    rcases List.mem_cons.mp hb with h1 | h1
    · subst h1
      have hx : x < 256 := h x (List.mem_cons_self x xs)
      have hk : ksByte iv i < 256 := ksByte_lt iv i
      have h256 : (256 : Nat) = 2 ^ 8 := by norm_num
      rw [h256] at hx hk ⊢
      exact Nat.xor_lt_two_pow hx hk
    · exact ih (i + 1) (fun y hy => h y (List.mem_cons_of_mem x hy)) b h1

/-! ## State-codec lemmas: base64url -/

theorem b64Val_b64Char_fin : ∀ n : Fin 64, b64Val (b64Char n.val) = some n.val := by
  decide

theorem b64Val_b64Char {n : Nat} (h : n < 64) : b64Val (b64Char n) = some n :=
  b64Val_b64Char_fin ⟨n, h⟩

theorem b64_roundtrip : ∀ bs : List Nat, (∀ b ∈ bs, b < 256) →
    b64DecodeChars (b64EncodeBytes bs) = some bs := by
  intro bs
  induction bs using b64EncodeBytes.induct with
  | case1 =>
    intro _
    rfl
  | case2 b0 =>
    intro h
    have h0 : b0 < 256 := h b0 (by simp)
    unfold b64EncodeBytes b64DecodeChars
    rw [b64Val_b64Char (by omega), b64Val_b64Char (by omega)]
    dsimp only
    have : b0 / 4 * 4 + b0 % 4 * 16 / 16 = b0 := by omega
    rw [this]
  | case3 b0 b1 =>
    intro h
    have h0 : b0 < 256 := h b0 (by simp)
    have h1 : b1 < 256 := h b1 (by simp)
    unfold b64EncodeBytes b64DecodeChars
    rw [b64Val_b64Char (by omega), b64Val_b64Char (by omega), b64Val_b64Char (by omega)]
    dsimp only
    have e0 : b0 / 4 * 4 + (b0 % 4 * 16 + b1 / 16) / 16 = b0 := by omega
    have e1 : (b0 % 4 * 16 + b1 / 16) % 16 * 16 + b1 % 16 * 4 / 4 = b1 := by omega
    rw [e0, e1]
  | case4 b0 b1 b2 rest ih =>
    intro h
    have h0 : b0 < 256 := h b0 (by simp)
    have h1 : b1 < 256 := h b1 (by simp)
    have h2 : b2 < 256 := h b2 (by simp)
    have hrest := ih (fun y hy => h y (by simp [hy]))
    unfold b64EncodeBytes b64DecodeChars
    rw [b64Val_b64Char (by omega), b64Val_b64Char (by omega), b64Val_b64Char (by omega),
      b64Val_b64Char (by omega), hrest]
    dsimp only
    have e0 : b0 / 4 * 4 + (b0 % 4 * 16 + b1 / 16) / 16 = b0 := by omega
    have e1 : (b0 % 4 * 16 + b1 / 16) % 16 * 16 + (b1 % 16 * 4 + b2 / 64) / 4 = b1 := by omega
    have e2 : (b1 % 16 * 4 + b2 / 64) % 4 * 64 + b2 % 64 = b2 := by omega
    rw [e0, e1, e2]

/-! ## State-codec lemmas: authentication tag -/

theorem tagVal_lt (iv ct : List Nat) : tagVal iv ct < 257 := by
  unfold tagVal
  omega

theorem tagBytes_length (iv ct : List Nat) : (tagBytes iv ct).length = 16 := by
  unfold tagBytes
  simp

theorem tagBytes_lt (iv ct : List Nat) : ∀ b ∈ tagBytes iv ct, b < 256 := by
  intro b hb
  have htv := tagVal_lt iv ct
  unfold tagBytes at hb
  rcases List.mem_cons.mp hb with h | h
  · omega
  · rcases List.mem_cons.mp h with h1 | h1
    · omega
    · rw [List.eq_of_mem_replicate h1]
      omega

theorem tagBytes_ne (iv1 ct1 iv2 ct2 : List Nat)
    (h : tagVal iv1 ct1 ≠ tagVal iv2 ct2) : tagBytes iv1 ct1 ≠ tagBytes iv2 ct2 := by
  unfold tagBytes
  intro he
  injection he with h1 he2
  injection he2 with h2 _
  exact h (by omega)

theorem tagVal_flip_iv (p x2 ct : List Nat) (b b' : Nat)
    (hb : b < 256) (hb' : b' < 256) (hne : b' ≠ b) :
    tagVal (p ++ b' :: x2) ct ≠ tagVal (p ++ b :: x2) ct := by
  unfold tagVal
  simp only [List.append_assoc, List.sum_append, List.sum_cons]
  omega

theorem tagVal_flip_ct (iv p x2 : List Nat) (b b' : Nat)
    (hb : b < 256) (hb' : b' < 256) (hne : b' ≠ b) :
    tagVal iv (p ++ b' :: x2) ≠ tagVal iv (p ++ b :: x2) := by
  unfold tagVal
  simp only [List.sum_append, List.sum_cons]
  omega

/-! ## State-codec lemmas: list splitting -/

theorem append_split_lt {α : Type} (p : List α) (b : α) (s x y : List α)
    (h : p ++ b :: s = x ++ y) (hlt : p.length < x.length) :
    ∃ x2, x = p ++ b :: x2 ∧ s = x2 ++ y := by
  induction p generalizing x with
  | nil =>
    cases x with
    | nil => simp at hlt
    | cons a x' =>
      rw [List.nil_append, List.cons_append] at h
      injection h with h1 h2
      exact ⟨x', by rw [h1, List.nil_append], h2⟩
  | cons a p' ih =>
    cases x with
    | nil => simp at hlt
    | cons a0 x' =>
      rw [List.cons_append, List.cons_append] at h
      injection h with h1 h2
      obtain ⟨x2, hx, hs⟩ := ih x' h2 (by simpa using hlt)
      exact ⟨x2, by rw [hx, h1, List.cons_append], hs⟩

theorem append_split_ge {α : Type} (p : List α) (b : α) (s x y : List α)
    (h : p ++ b :: s = x ++ y) (hge : x.length ≤ p.length) :
    ∃ p2, p = x ++ p2 ∧ p2 ++ b :: s = y := by
  induction x generalizing p with
  | nil => exact ⟨p, by simp, by simpa using h⟩
  | cons a x' ih =>
    cases p with
    | nil => simp at hge
    | cons a0 p' =>
      rw [List.cons_append, List.cons_append] at h
      injection h with h1 h2
      obtain ⟨p2, hp, hy⟩ := ih p' h2 (by simpa using hge)
      exact ⟨p2, by rw [List.cons_append, hp, h1], hy⟩

/-- Splitting the decoded envelope into its IV, tag and ciphertext regions. -/
theorem decode_regions (iv tb ct : List Nat) (h16 : iv.length = 16) (htb : tb.length = 16) :
    (iv ++ tb ++ ct).take 16 = iv ∧
    ((iv ++ tb ++ ct).drop 16).take 16 = tb ∧
    (iv ++ tb ++ ct).drop 32 = ct := by
  refine ⟨?_, ?_, ?_⟩
  · rw [List.append_assoc, List.take_left' h16]
  · rw [List.append_assoc, List.drop_left' h16, List.take_left' htb]
  · have h32 : (iv ++ tb).length = 32 := by simp [h16, htb]
    rw [List.drop_left' h32]

/-- Unfolding of the envelope assembly. -/
theorem combinedBytes_eq (v sid nonce : String) (t : Nat) (iv : List Nat) :
    combinedBytes v sid nonce t iv =
      iv ++ tagBytes iv (xorStream iv 0 (serializeState ⟨v, sid, nonce, t⟩)) ++
        xorStream iv 0 (serializeState ⟨v, sid, nonce, t⟩) := rfl

/-- Every byte of the assembled envelope is below 256. -/
theorem combinedBytes_lt (v sid nonce : String) (t : Nat) (iv : List Nat)
    (hby : ∀ x ∈ iv, x < 256) :
    ∀ x ∈ combinedBytes v sid nonce t iv, x < 256 := by
  rw [combinedBytes_eq]
  intro x hx
  rcases List.mem_append.mp hx with h | h
  · rcases List.mem_append.mp h with h1 | h1
    · exact hby x h1
    · exact tagBytes_lt _ _ x h1
  · exact xorStream_lt iv 0 _ (serializeState_lt _) x h

/-- `decodeState` after `encodeState` reduces to the expiry test. -/
theorem decodeState_encodeState (v sid nonce : String) (t now : Nat) (iv : List Nat)
    (hlen : iv.length = 16) (hby : ∀ x ∈ iv, x < 256) :
    decodeState (encodeState v sid nonce t iv) now =
      if now - t > TEN_MINUTES then none else some ⟨v, sid, nonce, t⟩ := by
  unfold encodeState decodeState
  dsimp only
  rw [b64_roundtrip _ (combinedBytes_lt v sid nonce t iv hby), combinedBytes_eq]
  dsimp only
  obtain ⟨r1, r2, r3⟩ := decode_regions iv
    (tagBytes iv (xorStream iv 0 (serializeState ⟨v, sid, nonce, t⟩)))
    (xorStream iv 0 (serializeState ⟨v, sid, nonce, t⟩)) hlen (tagBytes_length _ _)
  rw [r1, r2, r3, if_pos rfl, xorStream_involutive, parseState_serializeState]

/-- Flipping any single byte of the envelope makes `decodeState` fail the tag
check and return `none`. -/
theorem decodeState_flip (v sid nonce : String) (t now : Nat) (iv : List Nat)
    (hlen : iv.length = 16) (hby : ∀ x ∈ iv, x < 256)
    (p s : List Nat) (b b' : Nat)
    (hsplit : combinedBytes v sid nonce t iv = p ++ b :: s)
    (hb' : b' < 256) (hne : b' ≠ b) :
    decodeState (String.mk (b64EncodeBytes (p ++ b' :: s))) now = none := by
  have hcomb := combinedBytes_lt v sid nonce t iv hby
  rw [hsplit] at hcomb
  have hb : b < 256 := hcomb b (by simp)
  have hFok : ∀ x ∈ p ++ b' :: s, x < 256 := by
    intro x hx
    rcases List.mem_append.mp hx with h | h
    · exact hcomb x (List.mem_append_left _ h)
    · rcases List.mem_cons.mp h with h1 | h1
      · omega
      · exact hcomb x (List.mem_append_right _ (List.mem_cons_of_mem b h1))
  set pt := serializeState (⟨v, sid, nonce, t⟩ : PKCEStateData) with hpt
  set ct := xorStream iv 0 pt with hct
  set tb := tagBytes iv ct with htbdef
  have hsplit' : p ++ b :: s = iv ++ (tb ++ ct) := by
    rw [← hsplit, combinedBytes_eq, List.append_assoc]
  have htblen : tb.length = 16 := by rw [htbdef, tagBytes_length]
  unfold decodeState
  dsimp only
  rw [b64_roundtrip _ hFok]
  dsimp only
  rcases Nat.lt_or_ge p.length 16 with hc | hc
  · -- flip inside the IV region
    obtain ⟨x2, hiv, hs⟩ := append_split_lt p b s iv (tb ++ ct) hsplit' (by omega)
    have hF : p ++ b' :: s = (p ++ b' :: x2) ++ tb ++ ct := by
      rw [hs]
      simp
    have hlF : (p ++ b' :: x2).length = 16 := by
      have h1 := congrArg List.length hiv
      simp only [List.length_append, List.length_cons] at h1
      simp only [List.length_append, List.length_cons]
      omega
    rw [hF]
    obtain ⟨r1, r2, r3⟩ := decode_regions (p ++ b' :: x2) tb ct hlF htblen
    rw [r1, r2, r3]
    have hneq : tb ≠ tagBytes (p ++ b' :: x2) ct := by
      rw [htbdef, hiv]
      exact (tagBytes_ne _ _ _ _ (tagVal_flip_iv p x2 ct b b' hb hb' hne)).symm
    rw [if_neg hneq]
  · -- flip inside the tag or ciphertext region
    obtain ⟨p2, hp, hy⟩ := append_split_ge p b s iv (tb ++ ct) hsplit' (by omega)
    rcases Nat.lt_or_ge p2.length 16 with hc2 | hc2
    · -- tag region
      obtain ⟨x2, htb2, hs⟩ := append_split_lt p2 b s tb ct hy (by omega)
      have hF : p ++ b' :: s = iv ++ (p2 ++ b' :: x2) ++ ct := by
        rw [hp, hs]
        simp
      have hlF : (p2 ++ b' :: x2).length = 16 := by
        have h1 := congrArg List.length htb2
        rw [htblen] at h1
        simp only [List.length_append, List.length_cons] at h1
        simp only [List.length_append, List.length_cons]
        omega
      rw [hF]
      obtain ⟨r1, r2, r3⟩ := decode_regions iv (p2 ++ b' :: x2) ct hlen hlF
      rw [r1, r2, r3]
      have hneq : (p2 ++ b' :: x2) ≠ tagBytes iv ct := by
        rw [← htbdef, htb2]
        intro hcontra
        have h2 : b' :: x2 = b :: x2 := List.append_cancel_left hcontra
        injection h2 with hbb _
        exact hne hbb
      rw [if_neg hneq]
    · -- ciphertext region
      obtain ⟨p3, hp3, hct2⟩ := append_split_ge p2 b s tb ct hy (by omega)
      have hF : p ++ b' :: s = iv ++ tb ++ (p3 ++ b' :: s) := by
        rw [hp, hp3]
        simp
      rw [hF]
      obtain ⟨r1, r2, r3⟩ := decode_regions iv tb (p3 ++ b' :: s) hlen htblen
      rw [r1, r2, r3]
      have hneq : tb ≠ tagBytes iv (p3 ++ b' :: s) := by
        rw [htbdef]
        have h1 : tagVal iv (p3 ++ b' :: s) ≠ tagVal iv ct := by
          rw [← hct2]
          exact tagVal_flip_ct iv p3 s b b' hb hb' hne
        exact (tagBytes_ne _ _ _ _ h1).symm
      rw [if_neg hneq]

/-! ## C1 — state-codec round trip, expiry, tamper detection -/

/-- Claim C1: within the ten-minute validity window, decoding the string
produced by `encodeState` yields exactly the envelope that was encoded
(verifier, server id, nonce, creation time); once `createdAt` is more than ten
minutes old, `decodeState` returns `none`; and flipping any single byte of the
envelope (IV, authentication tag or ciphertext region alike) makes
`decodeState` return `none` because the authentication tag no longer
verifies.  `decodeState` is a total function into `Option`, modelling the
source's catch-all that returns `null` instead of throwing on malformed
input.  The per-call random IV is an explicit argument (16 bytes). -/
theorem stateCodec_roundtrip :
    (∀ (v sid nonce : String) (t now : Nat) (iv : List Nat),
      iv.length = 16 → (∀ x ∈ iv, x < 256) → now ≤ t + TEN_MINUTES →
      decodeState (encodeState v sid nonce t iv) now = some ⟨v, sid, nonce, t⟩) ∧
    (∀ (v sid nonce : String) (t now : Nat) (iv : List Nat),
      iv.length = 16 → (∀ x ∈ iv, x < 256) → t + TEN_MINUTES < now →
      decodeState (encodeState v sid nonce t iv) now = none) ∧
    (∀ (v sid nonce : String) (t now : Nat) (iv : List Nat) (p s : List Nat) (b b' : Nat),
      iv.length = 16 → (∀ x ∈ iv, x < 256) →
      combinedBytes v sid nonce t iv = p ++ b :: s → b' < 256 → b' ≠ b →
      decodeState (String.mk (b64EncodeBytes (p ++ b' :: s))) now = none) := by
  refine ⟨?_, ?_, ?_⟩
  · intro v sid nonce t now iv hlen hby hnow
    rw [decodeState_encodeState v sid nonce t now iv hlen hby]
    rw [if_neg (by omega)]
  · intro v sid nonce t now iv hlen hby hnow
    rw [decodeState_encodeState v sid nonce t now iv hlen hby]
    rw [if_pos (by omega)]
  · intro v sid nonce t now iv p s b b' hlen hby hsplit hb' hne
    exact decodeState_flip v sid nonce t now iv hlen hby p s b b' hsplit hb' hne

/-- Witness for C1 at concrete inputs: round trip at the window boundary,
`none` one millisecond past it, and `none` after flipping the first byte of
the envelope from 0 to 1. -/
theorem stateCodec_roundtrip_witness :
    decodeState (encodeState "v" "s" "n" 0 (List.replicate 16 0)) 600000 =
      some ⟨"v", "s", "n", 0⟩ ∧
    decodeState (encodeState "v" "s" "n" 0 (List.replicate 16 0)) 600001 = none ∧
    decodeState (String.mk (b64EncodeBytes
      (([] : List Nat) ++ 1 :: (combinedBytes "v" "s" "n" 0 (List.replicate 16 0)).drop 1)))
      600000 = none := by
  refine ⟨?_, ?_, ?_⟩
  · exact stateCodec_roundtrip.1 "v" "s" "n" 0 600000 (List.replicate 16 0)
      (by decide) (by decide) (by decide)
  · exact stateCodec_roundtrip.2.1 "v" "s" "n" 0 600001 (List.replicate 16 0)
      (by decide) (by decide) (by decide)
  · exact stateCodec_roundtrip.2.2 "v" "s" "n" 0 600000 (List.replicate 16 0)
      [] ((combinedBytes "v" "s" "n" 0 (List.replicate 16 0)).drop 1) 0 1
      (by decide) (by decide) (by decide) (by decide) (by decide)

end MCPConsole
